import Mathlib

/-!
Verification development for the Candidate Tuning & Auto-Improvement Pipeline
(`scripts/tune_candidate_gate_trade_density.py`,
`scripts/run_candidate_auto_improvement_loop.py`, `scripts/_script_common.py`).

Python floats are modelled as rationals (`ℚ`), Python ints as `ℤ`/`ℕ`,
raising code as `Except`, and the file system / external matrix runner as
explicit oracle parameters.  Python's `round` (banker's rounding, round half
to even) is modelled exactly by `roundHalfEven`.  Python's stable `sorted`
is modelled by a structural stable insertion sort `stableSort`.
-/

/-! ## Rounding helpers (Python `round`) -/

/-- Python `round(q)` on a real value: round half to even (banker's rounding). -/
def roundHalfEven (q : ℚ) : ℤ :=
  let f := ⌊q⌋
  let r := q - f
  if r < 1/2 then f
  else if 1/2 < r then f + 1
  else if f % 2 = 0 then f else f + 1

/-- Python `round(q, d)`: round to `d` decimal digits, half to even. -/
def roundTo (d : ℕ) (q : ℚ) : ℚ :=
  (roundHalfEven (q * (10 : ℚ) ^ d) : ℚ) / (10 : ℚ) ^ d

/-- Python `round(q, 6)` as used by both objective scorers. -/
def round6 (q : ℚ) : ℚ := roundTo 6 q

/-! ## Stable sort (Python `sorted`)

Python's `sorted` is a stable ascending sort; `sorted(..., reverse=True)` is
the stable sort by the reversed comparison.  Both are captured by `stableSort`
with the appropriate boolean "may come first" relation: `le x y = true` means
`x` may be placed before `y`. -/

def insertSorted (le : α → α → Bool) (x : α) : List α → List α
  | [] => [x]
  | y :: ys => if le x y then x :: y :: ys else y :: insertSorted le x ys

def stableSort (le : α → α → Bool) : List α → List α
  | [] => []
  | x :: xs => insertSorted le x (stableSort le xs)

/-! ## Objective scorers

`compute_combo_objective` (tune_candidate_gate_trade_density.py, lines
530-578) and `compute_objective_score`
(run_candidate_auto_improvement_loop.py, lines 109-141). -/

inductive ObjectiveMode
  | balanced
  | profitable_ratio_priority
deriving DecidableEq

/-- `compute_combo_objective` from tune_candidate_gate_trade_density.py. -/
def computeComboObjective
    (avgProfitFactor avgExpectancyKrw profitableRatio avgTotalTrades
      avgWinRatePct minAvgTrades minProfitableRatio minAvgWinRatePct
      minExpectancyKrw : ℚ) (objectiveMode : ObjectiveMode) : ℚ :=
  let penaltyA : ℚ :=
    if objectiveMode = .profitable_ratio_priority then
      (if avgTotalTrades < minAvgTrades
        then 2200 + (minAvgTrades - avgTotalTrades) * 420 else 0) +
      (if profitableRatio < minProfitableRatio
        then 12000 + (minProfitableRatio - profitableRatio) * 22000 else 0)
    else
      (if avgTotalTrades < minAvgTrades
        then 6000 + (minAvgTrades - avgTotalTrades) * 800 else 0) +
      (if profitableRatio < minProfitableRatio
        then 6000 + (minProfitableRatio - profitableRatio) * 9000 else 0)
  let penaltyB := penaltyA +
    (if avgWinRatePct < minAvgWinRatePct
      then 4000 + (minAvgWinRatePct - avgWinRatePct) * 180 else 0)
  let penaltyC := penaltyB +
    (if avgExpectancyKrw < minExpectancyKrw
      then 6000 + (minExpectancyKrw - avgExpectancyKrw) * 120 else 0)
  let penalty := penaltyC +
    (if avgProfitFactor < 1 then (1 - avgProfitFactor) * 2500 else 0)
  if 0 < penalty then
    round6 (-penalty + avgProfitFactor * 10)
  else if objectiveMode = .profitable_ratio_priority then
    round6 (profitableRatio * 9000 + avgExpectancyKrw * 32 +
      avgWinRatePct * 42 + (avgProfitFactor - 1) * 220 +
      min avgTotalTrades 20 * 12)
  else
    round6 (avgExpectancyKrw * 25 + profitableRatio * 4000 +
      avgWinRatePct * 40 + (avgProfitFactor - 1) * 300 +
      min avgTotalTrades 30 * 40)

/-- `compute_objective_score` from run_candidate_auto_improvement_loop.py.
Note the argument order of the source: win rate before trade count. -/
def computeObjectiveScore
    (avgProfitFactor avgExpectancyKrw profitableRatio avgWinRatePct
      avgTotalTrades minTradesFloor minProfitableRatio minAvgWinRatePct
      minExpectancyKrw : ℚ) : ℚ :=
  let penalty :=
    (if avgTotalTrades < minTradesFloor
      then 6000 + (minTradesFloor - avgTotalTrades) * 800 else 0) +
    (if profitableRatio < minProfitableRatio
      then 6000 + (minProfitableRatio - profitableRatio) * 9000 else 0) +
    (if avgWinRatePct < minAvgWinRatePct
      then 4000 + (minAvgWinRatePct - avgWinRatePct) * 180 else 0) +
    (if avgExpectancyKrw < minExpectancyKrw
      then 6000 + (minExpectancyKrw - avgExpectancyKrw) * 120 else 0) +
    (if avgProfitFactor < 1 then (1 - avgProfitFactor) * 2500 else 0)
  if 0 < penalty then
    round6 (-penalty + avgProfitFactor * 10)
  else
    round6 (avgExpectancyKrw * 25 + profitableRatio * 4000 +
      avgWinRatePct * 40 + (avgProfitFactor - 1) * 300 +
      min avgTotalTrades 30 * 40)

/-! ## Dataset sampler

`select_evenly_spaced_datasets` (tune_candidate_gate_trade_density.py,
lines 411-427). -/

/-- Boolean ascending order on naturals, for `stableSort`. -/
def natLeB (a b : ℕ) : Bool := decide (a ≤ b)

/-- The float stride `(len(datasets) - 1) / float(limit - 1)`. -/
def sampleStep (n limit : ℕ) : ℚ := ((n : ℚ) - 1) / ((limit : ℚ) - 1)

/-- `sorted({int(round(i * step)) for i in range(limit)})`. -/
def sampleBaseIndices (n limit : ℕ) : List ℕ :=
  stableSort natLeB
    (((List.range limit).map
      (fun (i : ℕ) => (roundHalfEven ((i : ℚ) * sampleStep n limit)).toNat)).dedup)

/-- The index list produced for `2 ≤ limit < n`: the rounded evenly spaced
positions, deduplicated, backfilled in ascending order from unused indices,
truncated to `limit` and sorted. -/
def sampleIndices (n limit : ℕ) : List ℕ :=
  let base := sampleBaseIndices n limit
  if base.length < limit then
    let extra := ((List.range n).filter (fun i => decide (i ∉ base))).take
      (limit - base.length)
    stableSort natLeB ((base ++ extra).take limit)
  else base

/-- `select_evenly_spaced_datasets(datasets, limit)`. -/
def selectEvenlySpacedDatasets (datasets : List α) (limit : ℤ) : List α :=
  if limit ≤ 0 ∨ (datasets.length : ℤ) ≤ limit then datasets
  else if limit = 1 then (datasets.get? (datasets.length / 2)).toList
  else (sampleIndices datasets.length limit.toNat).filterMap
    (fun i => datasets.get? i)

/-! ## Configuration combos and the combo generator

`build_combo_specs`, `combo_fingerprint`, `dedupe_combos`
(tune_candidate_gate_trade_density.py, lines 139-471).  Every generated
combo assigns all 25 tunable fields, so the `deepcopy`-and-override of
`new_combo_variant` is modelled by direct construction. -/

structure Combo where
  comboId : String
  description : String
  maxNewOrdersPerScan : ℤ
  minExpectedEdgePct : ℚ
  minRewardRisk : ℚ
  minRrWeakSignal : ℚ
  minRrStrongSignal : ℚ
  minStrategyTradesForEv : ℤ
  minStrategyExpectancyKrw : ℚ
  minStrategyProfitFactor : ℚ
  avoidHighVolatility : Bool
  avoidTrendingDown : Bool
  hostilityEwmaAlpha : ℚ
  hostilityHostileThreshold : ℚ
  hostilitySevereThreshold : ℚ
  hostilityExtremeThreshold : ℚ
  hostilityPauseScans : ℤ
  hostilityPauseScansExtreme : ℤ
  hostilityPauseRecentSampleMin : ℤ
  hostilityPauseRecentExpectancyKrw : ℚ
  hostilityPauseRecentWinRate : ℚ
  backtestHostilityPauseCandles : ℤ
  backtestHostilityPauseCandlesExtreme : ℤ
  scalpingMinSignalStrength : ℚ
  momentumMinSignalStrength : ℚ
  breakoutMinSignalStrength : ℚ
  meanReversionMinSignalStrength : ℚ
deriving DecidableEq

/-- The `material` dictionary hashed by `combo_fingerprint`: all tunable
fields, excluding `combo_id` and `description`.  The SHA-256 over the
canonical JSON encoding is modelled as the material itself (the hash is
treated as injective). -/
structure FingerprintMaterial where
  maxNewOrdersPerScan : ℤ
  minExpectedEdgePct : ℚ
  minRewardRisk : ℚ
  minRrWeakSignal : ℚ
  minRrStrongSignal : ℚ
  minStrategyTradesForEv : ℤ
  minStrategyExpectancyKrw : ℚ
  minStrategyProfitFactor : ℚ
  avoidHighVolatility : Bool
  avoidTrendingDown : Bool
  hostilityEwmaAlpha : ℚ
  hostilityHostileThreshold : ℚ
  hostilitySevereThreshold : ℚ
  hostilityExtremeThreshold : ℚ
  hostilityPauseScans : ℤ
  hostilityPauseScansExtreme : ℤ
  hostilityPauseRecentSampleMin : ℤ
  hostilityPauseRecentExpectancyKrw : ℚ
  hostilityPauseRecentWinRate : ℚ
  backtestHostilityPauseCandles : ℤ
  backtestHostilityPauseCandlesExtreme : ℤ
  scalpingMinSignalStrength : ℚ
  momentumMinSignalStrength : ℚ
  breakoutMinSignalStrength : ℚ
  meanReversionMinSignalStrength : ℚ
deriving DecidableEq

/-- `combo_fingerprint(combo)`. -/
def comboFingerprint (c : Combo) : FingerprintMaterial where
  maxNewOrdersPerScan := c.maxNewOrdersPerScan
  minExpectedEdgePct := c.minExpectedEdgePct
  minRewardRisk := c.minRewardRisk
  minRrWeakSignal := c.minRrWeakSignal
  minRrStrongSignal := c.minRrStrongSignal
  minStrategyTradesForEv := c.minStrategyTradesForEv
  minStrategyExpectancyKrw := c.minStrategyExpectancyKrw
  minStrategyProfitFactor := c.minStrategyProfitFactor
  avoidHighVolatility := c.avoidHighVolatility
  avoidTrendingDown := c.avoidTrendingDown
  hostilityEwmaAlpha := c.hostilityEwmaAlpha
  hostilityHostileThreshold := c.hostilityHostileThreshold
  hostilitySevereThreshold := c.hostilitySevereThreshold
  hostilityExtremeThreshold := c.hostilityExtremeThreshold
  hostilityPauseScans := c.hostilityPauseScans
  hostilityPauseScansExtreme := c.hostilityPauseScansExtreme
  hostilityPauseRecentSampleMin := c.hostilityPauseRecentSampleMin
  hostilityPauseRecentExpectancyKrw := c.hostilityPauseRecentExpectancyKrw
  hostilityPauseRecentWinRate := c.hostilityPauseRecentWinRate
  backtestHostilityPauseCandles := c.backtestHostilityPauseCandles
  backtestHostilityPauseCandlesExtreme := c.backtestHostilityPauseCandlesExtreme
  scalpingMinSignalStrength := c.scalpingMinSignalStrength
  momentumMinSignalStrength := c.momentumMinSignalStrength
  breakoutMinSignalStrength := c.breakoutMinSignalStrength
  meanReversionMinSignalStrength := c.meanReversionMinSignalStrength

/-- `dedupe_combos` with an explicit `seen` set of fingerprints. -/
def dedupeCombosAux (seen : List FingerprintMaterial) :
    List Combo → List Combo
  | [] => []
  | c :: rest =>
    if comboFingerprint c ∈ seen then dedupeCombosAux seen rest
    else c :: dedupeCombosAux (comboFingerprint c :: seen) rest

/-- `dedupe_combos(combos)`: keep the first occurrence of each fingerprint. -/
def dedupeCombos (combos : List Combo) : List Combo :=
  dedupeCombosAux [] combos

inductive ScenarioMode
  | legacy_only
  | diverse_light
  | diverse_wide
  | quality_focus
deriving DecidableEq

/-- The string form used in generated combo ids. -/
def ScenarioMode.str : ScenarioMode → String
  | .legacy_only => "legacy_only"
  | .diverse_light => "diverse_light"
  | .diverse_wide => "diverse_wide"
  | .quality_focus => "quality_focus"

/-- Python `f"{i:03d}"`. -/
def pad3 (n : ℕ) : String :=
  if n < 10 then "00" ++ toString n
  else if n < 100 then "0" ++ toString n
  else toString n

/-- The `baseline_current` legacy combo. -/
def legacyBaseline : Combo where
  comboId := "baseline_current"
  description := "Current baseline in build config."
  maxNewOrdersPerScan := 2
  minExpectedEdgePct := 0.0010
  minRewardRisk := 1.20
  minRrWeakSignal := 1.80
  minRrStrongSignal := 1.20
  minStrategyTradesForEv := 30
  minStrategyExpectancyKrw := -2.0
  minStrategyProfitFactor := 0.95
  avoidHighVolatility := true
  avoidTrendingDown := true
  hostilityEwmaAlpha := 0.14
  hostilityHostileThreshold := 0.62
  hostilitySevereThreshold := 0.82
  hostilityExtremeThreshold := 0.88
  hostilityPauseScans := 4
  hostilityPauseScansExtreme := 6
  hostilityPauseRecentSampleMin := 10
  hostilityPauseRecentExpectancyKrw := 0.0
  hostilityPauseRecentWinRate := 0.40
  backtestHostilityPauseCandles := 36
  backtestHostilityPauseCandlesExtreme := 60
  scalpingMinSignalStrength := 0.70
  momentumMinSignalStrength := 0.72
  breakoutMinSignalStrength := 0.40
  meanReversionMinSignalStrength := 0.40

/-- One grid point of the `diverse_light` / `diverse_wide` generation
(the body of the nested `edge`/`rr` loops, flattened index `i`). -/
def diverseCombo (mode : ScenarioMode) (scalpGrid momGrid breakoutGrid
    mrevGrid : List ℚ) (i : ℕ) (edge rr : ℚ) : Combo :=
  let weak := roundTo 2 (min 2.20 (rr + 0.45))
  let strong := roundTo 2 (max 0.80 (rr - 0.10))
  let evTrades : ℤ := if rr ≥ 1.30 then 35 else if rr ≥ 1.20 then 25 else 18
  let evExpect : ℚ := if edge ≥ 0.0014 then 0.0
    else if edge ≥ 0.0010 then -1.0 else -3.0
  let evPf : ℚ := if rr ≥ 1.30 then 1.00 else if rr ≥ 1.20 then 0.95 else 0.90
  { comboId := "scenario_" ++ mode.str ++ "_" ++ pad3 i
    description := "Auto-generated " ++ mode.str ++ " scenario"
    maxNewOrdersPerScan := if rr ≥ 1.25 then 2 else 3
    minExpectedEdgePct := edge
    minRewardRisk := rr
    minRrWeakSignal := weak
    minRrStrongSignal := strong
    minStrategyTradesForEv := evTrades
    minStrategyExpectancyKrw := evExpect
    minStrategyProfitFactor := evPf
    avoidHighVolatility := decide (edge ≥ 0.0010)
    avoidTrendingDown := decide (rr ≥ 1.20)
    hostilityEwmaAlpha := if rr ≥ 1.25 then 0.16 else 0.12
    hostilityHostileThreshold := if rr ≥ 1.30 then 0.64 else 0.60
    hostilitySevereThreshold := if rr ≥ 1.30 then 0.84 else 0.80
    hostilityExtremeThreshold := if rr ≥ 1.30 then 0.90 else 0.86
    hostilityPauseScans := if rr ≥ 1.30 then 5 else 3
    hostilityPauseScansExtreme := if rr ≥ 1.30 then 8 else 5
    hostilityPauseRecentSampleMin := 10
    hostilityPauseRecentExpectancyKrw := 0.0
    hostilityPauseRecentWinRate := if rr ≥ 1.30 then 0.42 else 0.38
    backtestHostilityPauseCandles := if rr ≥ 1.30 then 45 else 28
    backtestHostilityPauseCandlesExtreme := if rr ≥ 1.30 then 72 else 48
    scalpingMinSignalStrength := scalpGrid.getD (i % scalpGrid.length) 0
    momentumMinSignalStrength := momGrid.getD (i % momGrid.length) 0
    breakoutMinSignalStrength := breakoutGrid.getD (i % breakoutGrid.length) 0
    meanReversionMinSignalStrength := mrevGrid.getD (i % mrevGrid.length) 0 }

/-- The `diverse_light` / `diverse_wide` generated list: cartesian grid over
edge and reward/risk, with the flattened loop counter `i`. -/
def diverseGenerated (mode : ScenarioMode) : List Combo :=
  let wide := mode = ScenarioMode.diverse_wide
  let edgeGrid : List ℚ :=
    if wide then [0.0006, 0.0008, 0.0010, 0.0012, 0.0014, 0.0016]
    else [0.0008, 0.0010, 0.0012, 0.0014]
  let rrGrid : List ℚ :=
    if wide then [1.05, 1.15, 1.25, 1.35] else [1.10, 1.20, 1.30]
  let scalpGrid : List ℚ :=
    if wide then [0.62, 0.66, 0.70, 0.74] else [0.64, 0.68, 0.72]
  let momGrid : List ℚ :=
    if wide then [0.60, 0.64, 0.68, 0.72, 0.76] else [0.62, 0.68, 0.74]
  let breakoutGrid : List ℚ :=
    if wide then [0.35, 0.40, 0.45] else [0.36, 0.42]
  let mrevGrid : List ℚ :=
    if wide then [0.35, 0.40, 0.45] else [0.36, 0.42]
  ((edgeGrid.product rrGrid).enum).map
    (fun p => diverseCombo mode scalpGrid momGrid breakoutGrid mrevGrid
      p.1 p.2.1 p.2.2)

/-- One hand-authored `quality_focus` seed profile (the per-profile fields of
the `quality_profiles` list). -/
structure QualityProfile where
  minExpectedEdgePct : ℚ
  minRewardRisk : ℚ
  minRrWeakSignal : ℚ
  minRrStrongSignal : ℚ
  minStrategyTradesForEv : ℤ
  minStrategyExpectancyKrw : ℚ
  minStrategyProfitFactor : ℚ
  scalpingMinSignalStrength : ℚ
  momentumMinSignalStrength : ℚ
  breakoutMinSignalStrength : ℚ
  meanReversionMinSignalStrength : ℚ
deriving DecidableEq

def qualityProfiles : List QualityProfile :=
  [ { minExpectedEdgePct := 0.0010, minRewardRisk := 1.30
      minRrWeakSignal := 1.75, minRrStrongSignal := 1.20
      minStrategyTradesForEv := 35, minStrategyExpectancyKrw := -1.0
      minStrategyProfitFactor := 1.00, scalpingMinSignalStrength := 0.72
      momentumMinSignalStrength := 0.74, breakoutMinSignalStrength := 0.42
      meanReversionMinSignalStrength := 0.42 },
    { minExpectedEdgePct := 0.0012, minRewardRisk := 1.35
      minRrWeakSignal := 1.85, minRrStrongSignal := 1.25
      minStrategyTradesForEv := 40, minStrategyExpectancyKrw := -0.5
      minStrategyProfitFactor := 1.05, scalpingMinSignalStrength := 0.74
      momentumMinSignalStrength := 0.76, breakoutMinSignalStrength := 0.44
      meanReversionMinSignalStrength := 0.44 },
    { minExpectedEdgePct := 0.0014, minRewardRisk := 1.40
      minRrWeakSignal := 1.95, minRrStrongSignal := 1.30
      minStrategyTradesForEv := 45, minStrategyExpectancyKrw := 0.0
      minStrategyProfitFactor := 1.08, scalpingMinSignalStrength := 0.76
      momentumMinSignalStrength := 0.78, breakoutMinSignalStrength := 0.46
      meanReversionMinSignalStrength := 0.45 },
    { minExpectedEdgePct := 0.0011, minRewardRisk := 1.32
      minRrWeakSignal := 1.80, minRrStrongSignal := 1.22
      minStrategyTradesForEv := 38, minStrategyExpectancyKrw := -0.7
      minStrategyProfitFactor := 1.03, scalpingMinSignalStrength := 0.73
      momentumMinSignalStrength := 0.75, breakoutMinSignalStrength := 0.43
      meanReversionMinSignalStrength := 0.43 } ]

/-- One `quality_focus` seed combo (the fixed override fields plus the
profile fields). -/
def qualityCombo (i : ℕ) (p : QualityProfile) : Combo where
  comboId := "scenario_quality_focus_" ++ pad3 i
  description := "Auto-generated quality-focused scenario"
  maxNewOrdersPerScan := 2
  minExpectedEdgePct := p.minExpectedEdgePct
  minRewardRisk := p.minRewardRisk
  minRrWeakSignal := p.minRrWeakSignal
  minRrStrongSignal := p.minRrStrongSignal
  minStrategyTradesForEv := p.minStrategyTradesForEv
  minStrategyExpectancyKrw := p.minStrategyExpectancyKrw
  minStrategyProfitFactor := p.minStrategyProfitFactor
  avoidHighVolatility := true
  avoidTrendingDown := true
  hostilityEwmaAlpha := 0.16
  hostilityHostileThreshold := 0.64
  hostilitySevereThreshold := 0.84
  hostilityExtremeThreshold := 0.90
  hostilityPauseScans := 5
  hostilityPauseScansExtreme := 8
  hostilityPauseRecentSampleMin := 10
  hostilityPauseRecentExpectancyKrw := 0.0
  hostilityPauseRecentWinRate := 0.42
  backtestHostilityPauseCandles := 45
  backtestHostilityPauseCandlesExtreme := 72
  scalpingMinSignalStrength := p.scalpingMinSignalStrength
  momentumMinSignalStrength := p.momentumMinSignalStrength
  breakoutMinSignalStrength := p.breakoutMinSignalStrength
  meanReversionMinSignalStrength := p.meanReversionMinSignalStrength

/-- The systematic (edge, rr, signal) perturbation deltas. -/
def qualityPerturbationDeltas : List (ℚ × ℚ × ℚ) :=
  [(-0.0001, -0.05, -0.01), (-0.0001, 0.00, -0.01), (0.0000, 0.05, 0.00),
   (0.0001, 0.00, 0.01), (0.0001, 0.05, 0.01)]

/-- One `quality_focus` perturbation combo: base profile fields read from a
seed combo, perturbed by (dEdge, dRr, dSig) and clamped. -/
def qualityPerturbCombo (idx : ℕ) (base : Combo) (d : ℚ × ℚ × ℚ) : Combo :=
  let dEdge := d.1
  let dRr := d.2.1
  let dSig := d.2.2
  let minRr := roundTo 2 (max 1.05 (base.minRewardRisk + dRr))
  { comboId := "scenario_quality_focus_" ++ pad3 idx
    description := "Auto-generated quality-focused perturbation"
    maxNewOrdersPerScan := if minRr ≥ 1.25 then 2 else 3
    avoidHighVolatility := true
    avoidTrendingDown := decide (minRr ≥ 1.20)
    hostilityEwmaAlpha :=
      roundTo 2 (min 0.30 (max 0.06 (0.16 + (if 0 < dRr then 0.02 else -0.02))))
    hostilityHostileThreshold :=
      roundTo 2 (min 0.78 (max 0.50 (0.64 + (if 0 < dRr then 0.02 else -0.02))))
    hostilitySevereThreshold :=
      roundTo 2 (min 0.90 (max 0.65 (0.84 + (if 0 < dRr then 0.02 else -0.02))))
    hostilityExtremeThreshold :=
      roundTo 2 (min 0.95 (max 0.70 (0.90 + (if 0 < dRr then 0.02 else -0.02))))
    hostilityPauseScans := max 2 (min 12 (5 + (if 0 < dRr then 1 else -1)))
    hostilityPauseScansExtreme := max 3 (min 16 (8 + (if 0 < dRr then 2 else -2)))
    hostilityPauseRecentSampleMin := 10
    hostilityPauseRecentExpectancyKrw := 0.0
    hostilityPauseRecentWinRate :=
      roundTo 2 (min 0.55 (max 0.30 (0.42 + (if 0 < dRr then 0.02 else -0.02))))
    backtestHostilityPauseCandles := max 12 (min 180 (45 + (if 0 < dRr then 6 else -6)))
    backtestHostilityPauseCandlesExtreme := max 24 (min 240 (72 + (if 0 < dRr then 8 else -8)))
    minExpectedEdgePct :=
      roundTo 4 (min 0.0018 (max 0.0006 (base.minExpectedEdgePct + dEdge)))
    minRewardRisk := minRr
    minRrWeakSignal := roundTo 2 (min 2.20 (minRr + 0.50))
    minRrStrongSignal := roundTo 2 (max 0.90 (minRr - 0.10))
    minStrategyTradesForEv :=
      max 20 (min 55 (base.minStrategyTradesForEv + (if 0 < dRr then 2 else -2)))
    minStrategyExpectancyKrw :=
      roundTo 2 (min 0.8 (max (-2.5) (base.minStrategyExpectancyKrw +
        (if 0 < dRr then 0.3 else -0.2))))
    minStrategyProfitFactor :=
      roundTo 2 (min 1.12 (max 0.92 (base.minStrategyProfitFactor +
        (if 0 < dRr then 0.02 else -0.01))))
    scalpingMinSignalStrength :=
      roundTo 2 (min 0.80 (max 0.62 (base.scalpingMinSignalStrength + dSig)))
    momentumMinSignalStrength :=
      roundTo 2 (min 0.82 (max 0.60 (base.momentumMinSignalStrength + dSig)))
    breakoutMinSignalStrength :=
      roundTo 2 (min 0.50 (max 0.34 (base.breakoutMinSignalStrength + dSig * 0.6)))
    meanReversionMinSignalStrength :=
      roundTo 2 (min 0.50 (max 0.34 (base.meanReversionMinSignalStrength + dSig * 0.6))) }

/-- The `quality_focus` generated list: the four seed profiles, then
perturbations appended base-major until `idx` reaches `target_count`
(`max_scenarios` when positive, else 24), starting at `idx = 4`. -/
def qualityGenerated (maxScenarios : ℤ) : List Combo :=
  let seeds := (qualityProfiles.enum).map (fun x => qualityCombo x.1 x.2)
  let targetCount : ℕ := if 0 < maxScenarios then maxScenarios.toNat else 24
  let pairs := seeds.flatMap
    (fun b => qualityPerturbationDeltas.map (fun d => (b, d)))
  let perturbed := ((pairs.take (targetCount - seeds.length)).enum).map
    (fun x => qualityPerturbCombo (seeds.length + x.1) x.2.1 x.2.2)
  seeds ++ perturbed

/-- `build_combo_specs(scenario_mode, include_legacy, max_scenarios)`
(tune_candidate_gate_trade_density.py, lines 147-408): generate, prepend the
legacy baseline if requested, deduplicate by fingerprint, truncate to
`max_scenarios` when positive, and raise if the result is empty. -/
def buildComboSpecs (scenarioMode : ScenarioMode) (includeLegacy : Bool)
    (maxScenarios : ℤ) : Except String (List Combo) :=
  let legacy := [legacyBaseline]
  let combos :=
    if scenarioMode = ScenarioMode.legacy_only then legacy
    else
      let generated :=
        match scenarioMode with
        | .diverse_light | .diverse_wide => diverseGenerated scenarioMode
        | .quality_focus => qualityGenerated maxScenarios
        | .legacy_only => []
      if includeLegacy then legacy ++ generated else generated
  let deduped := dedupeCombos combos
  let truncated :=
    if 0 < maxScenarios ∧ maxScenarios.toNat < deduped.length then
      deduped.take maxScenarios.toNat
    else deduped
  if truncated.isEmpty then
    Except.error "No tuning combos selected. Check --scenario-mode/--max-scenarios."
  else Except.ok truncated

/-- The pre-deduplication candidate list assembled by `build_combo_specs`
(the `combos` variable right before the `dedupe_combos` call). -/
def buildComboInput (scenarioMode : ScenarioMode) (includeLegacy : Bool)
    (maxScenarios : ℤ) : List Combo :=
  let legacy := [legacyBaseline]
  if scenarioMode = ScenarioMode.legacy_only then legacy
  else
    let generated :=
      match scenarioMode with
      | .diverse_light | .diverse_wide => diverseGenerated scenarioMode
      | .quality_focus => qualityGenerated maxScenarios
      | .legacy_only => []
    if includeLegacy then legacy ++ generated else generated

/-! ## Candidate evaluator, evaluation cache, and screening funnel

`evaluate_combo` (tune_candidate_gate_trade_density.py, lines 598-738) and
the funnel portion of `main` (lines 862-1004).  The external matrix runner,
the file system, the JSON config merge and the dataset signature hash are
abstract oracle parameters (`TuneEnv`); the SHA-256 cache key is modelled by
the hashed material itself. -/

/-- One profile summary inside the matrix runner's report. -/
structure ProfileSummary where
  profileId : String
  runsUsedForGate : ℤ
  excludedLowTradeRuns : ℤ
  avgProfitFactor : ℚ
  avgExpectancyKrw : ℚ
  avgTotalTrades : ℚ
  avgWinRatePct : ℚ
  profitableRatio : ℚ
  gateProfitFactorPass : Bool
  gateTradesPass : Bool
  gateProfitableRatioPass : Bool
  gateExpectancyPass : Bool
deriving DecidableEq

/-- A dictionary of optional threshold values (`min_*` keys). -/
structure ThresholdsDict where
  minProfitFactor : Option ℚ
  minExpectancyKrw : Option ℚ
  minProfitableRatio : Option ℚ
  minAvgWinRatePct : Option ℚ
  minAvgTrades : Option ℚ
deriving DecidableEq

def ThresholdsDict.empty : ThresholdsDict :=
  ⟨none, none, none, none, none⟩

/-- The `hostility` sub-dictionary of the adaptive threshold bundle. -/
structure HostilityInfo where
  hostilityLevel : Option String
  avgAdversarialScore : Option ℚ
deriving DecidableEq

def HostilityInfo.empty : HostilityInfo := ⟨none, none⟩

/-- The `thresholds.hostility_adaptive` bundle of the report. -/
structure HostilityAdaptiveBundle where
  effective : Option ThresholdsDict
  requested : Option ThresholdsDict
  hostility : Option HostilityInfo
deriving DecidableEq

def HostilityAdaptiveBundle.empty : HostilityAdaptiveBundle :=
  ⟨none, none, none⟩

/-- The `thresholds` section of the report: the optional adaptive bundle
plus the top-level `min_*` keys used as the `requested` fallback. -/
structure ReportThresholds where
  hostilityAdaptive : Option HostilityAdaptiveBundle
  base : ThresholdsDict
deriving DecidableEq

def ReportThresholds.empty : ReportThresholds := ⟨none, ThresholdsDict.empty⟩

/-- The structured report written by the external matrix runner. -/
structure MatrixReport where
  overallGatePass : Bool
  profileGatePass : Bool
  profileSummaries : List ProfileSummary
  thresholds : Option ReportThresholds
deriving DecidableEq

/-- One invocation of the external matrix runner: everything the
subprocess call depends on (the config file content as written, the dataset
list, gate parameters, flags, and output artifact paths). -/
structure MatrixCall where
  configContent : String
  datasets : List String
  profileIds : List String
  gateMinAvgTrades : ℤ
  requireHigherTfCompanions : Bool
  enableHostilityAdaptiveThresholds : Bool
  enableHostilityAdaptiveTradesOnly : Bool
  maxWorkers : ℤ
  retryCount : ℤ
  outMatrixCsv : String
  outProfileCsv : String
  outReportJson : String
deriving DecidableEq

/-- One evaluation result row (the dictionary built by `evaluate_combo`,
plus the objective/linkage keys added later by `main`, which default to
`0`/`false` while unset, matching the `dict.get(..., 0.0/False)` reads). -/
structure EvalRow where
  comboId : String
  description : String
  stage : String
  targetProfile : String
  overallGatePass : Bool
  profileGatePass : Bool
  runsUsedForGate : ℤ
  excludedLowTradeRuns : ℤ
  avgProfitFactor : ℚ
  avgExpectancyKrw : ℚ
  avgTotalTrades : ℚ
  avgWinRatePct : ℚ
  profitableRatio : ℚ
  gateProfitFactorPass : Bool
  gateTradesPass : Bool
  gateProfitableRatioPass : Bool
  gateExpectancyPass : Bool
  effectiveMinProfitFactor : ℚ
  effectiveMinExpectancyKrw : ℚ
  effectiveMinProfitableRatio : ℚ
  effectiveMinAvgWinRatePct : ℚ
  effectiveMinAvgTrades : ℚ
  hostilityLevel : String
  hostilityAvgScore : ℚ
  reportJson : String
  profileCsv : String
  matrixCsv : String
  fromCache : Bool
  objectiveScore : ℚ
  objectiveEffectiveMinAvgTrades : ℚ
  objectiveEffectiveMinProfitableRatio : ℚ
  objectiveEffectiveMinAvgWinRatePct : ℚ
  objectiveEffectiveMinExpectancyKrw : ℚ
  constraintPass : Bool
  screenObjectiveScore : ℚ
  screenAvgTotalTrades : ℚ
  screenProfitableRatio : ℚ
  screenAvgWinRatePct : ℚ
deriving DecidableEq

/-- The `cache_material` dictionary of `evaluate_combo`; `stable_json_hash`
over it is modelled as the material itself. -/
structure CacheKey where
  cacheSchemaVersion : ℕ
  baseConfigHash : String
  comboFingerprint : FingerprintMaterial
  stageName : String
  profileIds : List String
  gateMinAvgTrades : ℤ
  requireHigherTfCompanions : Bool
  enableHostilityAdaptiveThresholds : Bool
  enableHostilityAdaptiveTradesOnly : Bool
  matrixMaxWorkers : ℤ
  matrixBacktestRetryCount : ℤ
  datasetsSigHash : String
deriving DecidableEq

/-- In-memory cache entries (the `entries` dictionary). -/
abbrev CacheEntries := List (CacheKey × EvalRow)

def cacheLookup (entries : CacheEntries) (k : CacheKey) : Option EvalRow :=
  (entries.find? (fun e => decide (e.1 = k))).map (fun e => e.2)

def cacheErase (entries : CacheEntries) (k : CacheKey) : CacheEntries :=
  entries.filter (fun e => decide (e.1 ≠ k))

def cacheInsert (entries : CacheEntries) (k : CacheKey) (row : EvalRow) :
    CacheEntries :=
  if (entries.find? (fun e => decide (e.1 = k))).isSome then
    entries.map (fun e => if e.1 = k then (k, row) else e)
  else entries ++ [(k, row)]

/-- Command-line parameters of the tune script that the evaluator and the
funnel read (after argparse resolution). -/
structure TuneParams where
  screenDatasetLimit : ℤ
  screenTopK : ℤ
  gateMinAvgTrades : ℤ
  objectiveMinAvgTrades : ℚ
  objectiveMinProfitableRatio : ℚ
  objectiveMinAvgWinRatePct : ℚ
  objectiveMinExpectancyKrw : ℚ
  objectiveMode : ObjectiveMode
  useEffectiveThresholdsForObjective : Bool
  requireHigherTfCompanions : Bool
  enableHostilityAdaptiveThresholds : Bool
  enableHostilityAdaptiveTradesOnly : Bool
  matrixMaxWorkers : ℤ
  matrixBacktestRetryCount : ℤ
  cacheEnabled : Bool
  screenProfileIds : List String
  finalProfileIds : List String
  outputDir : String
  baseConfigHash : String

/-- Failure modes of a tuning run (Python exceptions). -/
inductive TuneErr
  | matrixFailed (comboId stageName : String)
  | summaryNotFound (comboId stageName : String)
  | lockTimeout
  | noRows
deriving DecidableEq

/-- The environment of a tuning run: the opaque external collaborators. -/
structure TuneEnv where
  runMatrix : MatrixCall → Except TuneErr MatrixReport
  fsExists : String → Bool
  mergeConfig : String → Combo → String
  sigHash : List String → String
  lockAvailable : Bool

/-- The mutable state threaded through a tuning run: the shared build
configuration file content, the in-memory cache entries, plus two
instrumentation traces (one `evalTrace` entry per `evaluate_combo` call,
one `matrixCalls` entry per external matrix runner invocation). -/
structure TuneState where
  config : String
  entries : CacheEntries
  evalTrace : List (String × String × List String)
  matrixCalls : List MatrixCall

/-- The cache-miss path of `evaluate_combo`: merge the combo into the shared
config, write it, invoke the matrix runner, extract the target profile
summary and the effective thresholds, and store the row. -/
def evalComboFresh (env : TuneEnv) (p : TuneParams) (original : String)
    (combo : Combo) (datasets : List String) (stageName : String)
    (profileIds : List String) (key : CacheKey) (st : TuneState) :
    Except TuneErr EvalRow × TuneState :=
  let st := { st with config := env.mergeConfig original combo }
  let suffix := combo.comboId ++ "_" ++ stageName
  let matrixCsv := p.outputDir ++ "/profitability_matrix_" ++ suffix ++ ".csv"
  let profileCsv :=
    p.outputDir ++ "/profitability_profile_summary_" ++ suffix ++ ".csv"
  let reportJson :=
    p.outputDir ++ "/profitability_gate_report_" ++ suffix ++ ".json"
  let call : MatrixCall :=
    { configContent := st.config
      datasets := datasets
      profileIds := profileIds
      gateMinAvgTrades := p.gateMinAvgTrades
      requireHigherTfCompanions := p.requireHigherTfCompanions
      enableHostilityAdaptiveThresholds := p.enableHostilityAdaptiveThresholds
      enableHostilityAdaptiveTradesOnly := p.enableHostilityAdaptiveTradesOnly
      maxWorkers := max 1 p.matrixMaxWorkers
      retryCount := max 1 p.matrixBacktestRetryCount
      outMatrixCsv := matrixCsv
      outProfileCsv := profileCsv
      outReportJson := reportJson }
  let st := { st with matrixCalls := st.matrixCalls ++ [call] }
  match env.runMatrix call with
  | .error e => (.error e, st)
  | .ok report =>
    let targetProfile :=
      if "core_full" ∈ profileIds then "core_full" else profileIds.headD ""
    match report.profileSummaries.find?
        (fun s => decide (s.profileId = targetProfile)) with
    | none => (.error (.summaryNotFound combo.comboId stageName), st)
    | some summary =>
      let reportThresholds := report.thresholds.getD ReportThresholds.empty
      let bundle :=
        reportThresholds.hostilityAdaptive.getD HostilityAdaptiveBundle.empty
      let effective := bundle.effective.getD ThresholdsDict.empty
      let requested := bundle.requested.getD reportThresholds.base
      let hostility := bundle.hostility.getD HostilityInfo.empty
      let row : EvalRow :=
        { comboId := combo.comboId
          description := combo.description
          stage := stageName
          targetProfile := targetProfile
          overallGatePass := report.overallGatePass
          profileGatePass := report.profileGatePass
          runsUsedForGate := summary.runsUsedForGate
          excludedLowTradeRuns := summary.excludedLowTradeRuns
          avgProfitFactor := summary.avgProfitFactor
          avgExpectancyKrw := summary.avgExpectancyKrw
          avgTotalTrades := summary.avgTotalTrades
          avgWinRatePct := summary.avgWinRatePct
          profitableRatio := summary.profitableRatio
          gateProfitFactorPass := summary.gateProfitFactorPass
          gateTradesPass := summary.gateTradesPass
          gateProfitableRatioPass := summary.gateProfitableRatioPass
          gateExpectancyPass := summary.gateExpectancyPass
          effectiveMinProfitFactor :=
            (effective.minProfitFactor).getD ((requested.minProfitFactor).getD 1.0)
          effectiveMinExpectancyKrw :=
            (effective.minExpectancyKrw).getD ((requested.minExpectancyKrw).getD 0.0)
          effectiveMinProfitableRatio :=
            (effective.minProfitableRatio).getD
              ((requested.minProfitableRatio).getD 0.5)
          effectiveMinAvgWinRatePct :=
            (effective.minAvgWinRatePct).getD ((requested.minAvgWinRatePct).getD 48.0)
          effectiveMinAvgTrades :=
            (effective.minAvgTrades).getD
              ((requested.minAvgTrades).getD (p.gateMinAvgTrades : ℚ))
          hostilityLevel := (hostility.hostilityLevel).getD "unknown"
          hostilityAvgScore := (hostility.avgAdversarialScore).getD 0.0
          reportJson := reportJson
          profileCsv := profileCsv
          matrixCsv := matrixCsv
          fromCache := false
          objectiveScore := 0
          objectiveEffectiveMinAvgTrades := 0
          objectiveEffectiveMinProfitableRatio := 0
          objectiveEffectiveMinAvgWinRatePct := 0
          objectiveEffectiveMinExpectancyKrw := 0
          constraintPass := false
          screenObjectiveScore := 0
          screenAvgTotalTrades := 0
          screenProfitableRatio := 0
          screenAvgWinRatePct := 0 }
      let st :=
        if p.cacheEnabled then { st with entries := cacheInsert st.entries key row }
        else st
      (.ok row, st)

/-- The `cache_material` record of `evaluate_combo` for one call (the
`stable_json_hash` of it is the cache key; modelled by the record itself). -/
def evalCacheKey (p : TuneParams) (combo : Combo) (stageName : String)
    (profileIds : List String) (datasetsSigHash : String) : CacheKey :=
  { cacheSchemaVersion := 2
    baseConfigHash := p.baseConfigHash
    comboFingerprint := comboFingerprint combo
    stageName := stageName
    profileIds := profileIds
    gateMinAvgTrades := p.gateMinAvgTrades
    requireHigherTfCompanions := p.requireHigherTfCompanions
    enableHostilityAdaptiveThresholds := p.enableHostilityAdaptiveThresholds
    enableHostilityAdaptiveTradesOnly := p.enableHostilityAdaptiveTradesOnly
    matrixMaxWorkers := p.matrixMaxWorkers
    matrixBacktestRetryCount := p.matrixBacktestRetryCount
    datasetsSigHash := datasetsSigHash }

/-- `evaluate_combo`: cache lookup with artifact validation, eviction of
entries with missing artifacts, and fallthrough to fresh evaluation. -/
def evaluateCombo (env : TuneEnv) (p : TuneParams) (original : String)
    (combo : Combo) (datasets : List String) (stageName : String)
    (profileIds : List String) (datasetsSigHash : String) (st : TuneState) :
    Except TuneErr EvalRow × TuneState :=
  let key : CacheKey := evalCacheKey p combo stageName profileIds datasetsSigHash
  let st := { st with
    evalTrace := st.evalTrace ++ [(stageName, combo.comboId, datasets)] }
  match (if p.cacheEnabled then cacheLookup st.entries key else none) with
  | some cached =>
    if env.fsExists cached.reportJson ∧ env.fsExists cached.profileCsv ∧
        env.fsExists cached.matrixCsv then
      (.ok { cached with fromCache := true }, st)
    else
      evalComboFresh env p original combo datasets stageName profileIds key
        { st with entries := cacheErase st.entries key }
  | none =>
    evalComboFresh env p original combo datasets stageName profileIds key st

/-- `get_effective_objective_thresholds(row, args)` (lines 581-595): the
requested objective floors, or the row's effective thresholds when
`use_effective_thresholds_for_objective` is set. -/
structure ObjectiveThresholds where
  minAvgTrades : ℚ
  minProfitableRatio : ℚ
  minAvgWinRatePct : ℚ
  minExpectancyKrw : ℚ
deriving DecidableEq

def getEffectiveObjectiveThresholds (row : EvalRow) (p : TuneParams) :
    ObjectiveThresholds :=
  if p.useEffectiveThresholdsForObjective then
    { minAvgTrades := row.effectiveMinAvgTrades
      minProfitableRatio := row.effectiveMinProfitableRatio
      minAvgWinRatePct := row.effectiveMinAvgWinRatePct
      minExpectancyKrw := row.effectiveMinExpectancyKrw }
  else
    { minAvgTrades := p.objectiveMinAvgTrades
      minProfitableRatio := p.objectiveMinProfitableRatio
      minAvgWinRatePct := p.objectiveMinAvgWinRatePct
      minExpectancyKrw := p.objectiveMinExpectancyKrw }

/-- The screen-loop body of `main` after `evaluate_combo` (lines 912-935):
attach the objective score, the thresholds it used, and the constraint
flag. -/
def scoreScreenRow (p : TuneParams) (row : EvalRow) : EvalRow :=
  let eff := getEffectiveObjectiveThresholds row p
  let objective := computeComboObjective row.avgProfitFactor
    row.avgExpectancyKrw row.profitableRatio row.avgTotalTrades
    row.avgWinRatePct eff.minAvgTrades eff.minProfitableRatio
    eff.minAvgWinRatePct eff.minExpectancyKrw p.objectiveMode
  { row with
    objectiveScore := objective
    objectiveEffectiveMinAvgTrades := eff.minAvgTrades
    objectiveEffectiveMinProfitableRatio := eff.minProfitableRatio
    objectiveEffectiveMinAvgWinRatePct := eff.minAvgWinRatePct
    objectiveEffectiveMinExpectancyKrw := eff.minExpectancyKrw
    constraintPass :=
      decide (row.avgTotalTrades ≥ eff.minAvgTrades) &&
      decide (row.profitableRatio ≥ eff.minProfitableRatio) &&
      decide (row.avgWinRatePct ≥ eff.minAvgWinRatePct) &&
      decide (row.avgExpectancyKrw ≥ eff.minExpectancyKrw) }

/-- `screen_map.get(combo_id, {})`: the dict comprehension keeps the last
row per id. -/
def screenMapGet (rows : List EvalRow) (id : String) : Option EvalRow :=
  rows.foldl (fun acc x => if x.comboId = id then some x else acc) none

/-- The final-loop body of `main` after `evaluate_combo` (lines 979-1001):
attach the objective score and the linked screening metrics. -/
def scoreFinalRow (p : TuneParams) (screenRows : List EvalRow)
    (row : EvalRow) : EvalRow :=
  let eff := getEffectiveObjectiveThresholds row p
  let objective := computeComboObjective row.avgProfitFactor
    row.avgExpectancyKrw row.profitableRatio row.avgTotalTrades
    row.avgWinRatePct eff.minAvgTrades eff.minProfitableRatio
    eff.minAvgWinRatePct eff.minExpectancyKrw p.objectiveMode
  let linked := screenMapGet screenRows row.comboId
  { row with
    objectiveScore := objective
    objectiveEffectiveMinAvgTrades := eff.minAvgTrades
    objectiveEffectiveMinProfitableRatio := eff.minProfitableRatio
    objectiveEffectiveMinAvgWinRatePct := eff.minAvgWinRatePct
    objectiveEffectiveMinExpectancyKrw := eff.minExpectancyKrw
    screenObjectiveScore := (linked.map (fun x => x.objectiveScore)).getD 0
    screenAvgTotalTrades := (linked.map (fun x => x.avgTotalTrades)).getD 0
    screenProfitableRatio := (linked.map (fun x => x.profitableRatio)).getD 0
    screenAvgWinRatePct := (linked.map (fun x => x.avgWinRatePct)).getD 0 }

/-- Lexicographic less-or-equal on rationals with a tie continuation. -/
def qLexLe (a b : ℚ) (tie : Bool) : Bool :=
  if a = b then tie else decide (a < b)

/-- Lexicographic less-or-equal on booleans (`False < True`) with a tie
continuation. -/
def bLexLe (a b : Bool) (tie : Bool) : Bool :=
  if a = b then tie else a = false

/-- The §4.6 screening sort key of a row:
`(constraint_pass, objective_score, avg_expectancy_krw, avg_win_rate_pct,
profitable_ratio, avg_total_trades)`. -/
def screenSortKey (r : EvalRow) : Bool × ℚ × ℚ × ℚ × ℚ × ℚ :=
  (r.constraintPass, r.objectiveScore, r.avgExpectancyKrw,
    r.avgWinRatePct, r.profitableRatio, r.avgTotalTrades)

/-- Lexicographic less-or-equal on screening sort keys. -/
def screenKeyLe (x y : Bool × ℚ × ℚ × ℚ × ℚ × ℚ) : Bool :=
  bLexLe x.1 y.1 (qLexLe x.2.1 y.2.1 (qLexLe x.2.2.1 y.2.2.1
    (qLexLe x.2.2.2.1 y.2.2.2.1 (qLexLe x.2.2.2.2.1 y.2.2.2.2.1
      (qLexLe x.2.2.2.2.2 y.2.2.2.2.2 true)))))

/-- The ordering used by `sorted(screen_rows, key=..., reverse=True)`:
row `a` may precede row `b` exactly when `key b ≤ key a`, so the stable
sort arranges rows in descending key order with ties in original order. -/
def screenDescLe (a b : EvalRow) : Bool :=
  screenKeyLe (screenSortKey b) (screenSortKey a)

/-- One stage loop of `main`: run the given per-combo step left to right,
propagating the first raised error. -/
def runEvalLoop (step : Combo → TuneState → Except TuneErr EvalRow × TuneState) :
    List Combo → TuneState → Except TuneErr (List EvalRow) × TuneState
  | [], st => (.ok [], st)
  | c :: rest, st =>
    match step c st with
    | (.error e, st1) => (.error e, st1)
    | (.ok row, st1) =>
      match runEvalLoop step rest st1 with
      | (.error e, st2) => (.error e, st2)
      | (.ok rows, st2) => (.ok (row :: rows), st2)

/-- The screen-stage step of `main` (lines 890-936). -/
def screenStep (env : TuneEnv) (p : TuneParams) (original : String)
    (doScreening : Bool) (screenDatasets datasets : List String)
    (screenSigHash finalSigHash : String) (c : Combo) (st : TuneState) :
    Except TuneErr EvalRow × TuneState :=
  match evaluateCombo env p original c
      (if doScreening then screenDatasets else datasets) "screen"
      p.screenProfileIds
      (if doScreening then screenSigHash else finalSigHash) st with
  | (.error e, st1) => (.error e, st1)
  | (.ok row, st1) => (.ok (scoreScreenRow p row), st1)

/-- The final-stage step of `main` (lines 957-1002). -/
def finalStep (env : TuneEnv) (p : TuneParams) (original : String)
    (datasets : List String) (finalSigHash : String)
    (screenRows : List EvalRow) (c : Combo) (st : TuneState) :
    Except TuneErr EvalRow × TuneState :=
  match evaluateCombo env p original c datasets "final" p.finalProfileIds
      finalSigHash st with
  | (.error e, st1) => (.error e, st1)
  | (.ok row, st1) => (.ok (scoreFinalRow p screenRows row), st1)

/-- The `selected_combo_ids` computation (lines 938-953): all ids, or the
top `max(1, screen_top_k)` ids of the descending screening sort. -/
def selectTopIds (p : TuneParams) (doScreening : Bool) (combos : List Combo)
    (screenRows : List EvalRow) : List String :=
  if doScreening then
    ((stableSort screenDescLe screenRows).take (max 1 p.screenTopK.toNat)).map
      (fun r => r.comboId)
  else combos.map (fun c => c.comboId)

/-- The body of the `try` block of `main` (lines 889-1002): full screen
loop, top-K selection, and final loop over the selected combos. -/
def runTuningBody (env : TuneEnv) (p : TuneParams) (combos : List Combo)
    (datasets : List String) (original : String) (st0 : TuneState) :
    Except TuneErr (List EvalRow × List EvalRow) × TuneState :=
  let screenDatasets := selectEvenlySpacedDatasets datasets p.screenDatasetLimit
  let screenSigHash := env.sigHash screenDatasets
  let finalSigHash := env.sigHash datasets
  let doScreening :=
    decide (0 < p.screenDatasetLimit) &&
    decide (screenDatasets.length < datasets.length)
  match runEvalLoop
      (screenStep env p original doScreening screenDatasets datasets
        screenSigHash finalSigHash) combos st0 with
  | (.error e, st1) => (.error e, st1)
  | (.ok screenRows, st1) =>
    let selectedIds := selectTopIds p doScreening combos screenRows
    let combosForFinal :=
      combos.filter (fun c => decide (c.comboId ∈ selectedIds))
    match runEvalLoop
        (finalStep env p original datasets finalSigHash screenRows)
        combosForFinal st1 with
    | (.error e, st2) => (.error e, st2)
    | (.ok finalRows, st2) => (.ok (screenRows, finalRows), st2)

/-- `main` from the `original_build_raw` read onward (lines 862-1007):
acquire the verification lock, run the funnel body inside `try`, restore
the original config content in the `finally` clause on every path, and
raise if no final rows were produced. -/
def runTuneScript (env : TuneEnv) (p : TuneParams) (combos : List Combo)
    (datasets : List String) (original : String)
    (initialEntries : CacheEntries) :
    Except TuneErr (List EvalRow × List EvalRow) × TuneState :=
  let st0 : TuneState :=
    { config := original, entries := initialEntries, evalTrace := []
      matrixCalls := [] }
  if env.lockAvailable = false then (.error .lockTimeout, st0)
  else
    match runTuningBody env p combos datasets original st0 with
    | (res, st) =>
      let stRestored := { st with config := original }
      match res with
      | .error e => (.error e, stRestored)
      | .ok (screenRows, finalRows) =>
        if finalRows.isEmpty then (.error .noRows, stRestored)
        else (.ok (screenRows, finalRows), stRestored)

/-! ## Auto-Improvement Loop

`run_candidate_auto_improvement_loop.main` (lines 361-776) together with
`target_satisfied`, `resolve_active_thresholds` and `get_core_snapshot`
(lines 144-230).  The external effects of one iteration (the baseline
realdata run, the tune sub-run, and the post-apply validation run) are an
oracle indexed by the iteration number. -/

/-- The `core_full` profile summary fields read by the loop. -/
structure CoreSummary where
  avgProfitFactor : ℚ
  avgExpectancyKrw : ℚ
  avgTotalTrades : ℚ
  avgWinRatePct : ℚ
  profitableRatio : ℚ
  gatePass : Bool
deriving DecidableEq

/-- The gate report document as far as the loop reads it.  `coreFull` is
the `core_full` entry of `profile_summaries` (absent → raise). -/
structure GateReport where
  coreFull : Option CoreSummary
  thresholds : Option ReportThresholds
  overallGatePass : Bool
  coreVsLegacyGatePass : Bool
deriving DecidableEq

/-- The five active feasibility thresholds of the loop. -/
structure ActiveThresholds where
  minProfitFactor : ℚ
  minExpectancyKrw : ℚ
  minProfitableRatio : ℚ
  minAvgWinRatePct : ℚ
  minAvgTrades : ℚ
deriving DecidableEq

/-- `target_satisfied(core_summary, min_pf, min_exp, min_ratio, min_trades,
min_win_rate_pct)`. -/
def loopTargetSatisfied (core : Option CoreSummary)
    (minPf minExp minRatio minTrades minWinRatePct : ℚ) : Bool :=
  match core with
  | none => false
  | some c =>
    decide (c.avgProfitFactor ≥ minPf) && decide (c.avgExpectancyKrw ≥ minExp) &&
    decide (c.profitableRatio ≥ minRatio) && decide (c.avgTotalTrades ≥ minTrades) &&
    decide (c.avgWinRatePct ≥ minWinRatePct)

/-- `resolve_active_thresholds(report, requested, use_effective)`: returns
the active thresholds and the `adaptive_applied` flag.  An absent or empty
`effective` dictionary is modelled as `none`. -/
def resolveActiveThresholds (report : GateReport)
    (requested : ActiveThresholds) (useEffective : Bool) :
    ActiveThresholds × Bool :=
  let bundle := (report.thresholds.getD ReportThresholds.empty).hostilityAdaptive.getD
    HostilityAdaptiveBundle.empty
  match bundle.effective with
  | some eff =>
    if useEffective then
      ({ minProfitFactor := eff.minProfitFactor.getD requested.minProfitFactor
         minExpectancyKrw := eff.minExpectancyKrw.getD requested.minExpectancyKrw
         minProfitableRatio :=
           eff.minProfitableRatio.getD requested.minProfitableRatio
         minAvgWinRatePct := eff.minAvgWinRatePct.getD requested.minAvgWinRatePct
         minAvgTrades := eff.minAvgTrades.getD requested.minAvgTrades }, true)
    else (requested, false)
  | none => (requested, false)

/-- Failure modes of the loop (Python exceptions raised by `main`). -/
inductive LoopErr
  | realdataFailed
  | gateReportNotFound
  | coreSummaryNotFound
  | tuneFailed
  | tuneSummaryNotFound
  | noCandidates
  | lossAnalysisFailed
deriving DecidableEq

/-- The result of `get_core_snapshot` (lines 186-230): the core metrics, the
objective score computed with `compute_objective_score` against the active
thresholds, and the gate flags. -/
structure Snapshot where
  core : CoreSummary
  objectiveScore : ℚ
  activeThresholds : ActiveThresholds
  adaptiveApplied : Bool
  overallGatePass : Bool
  coreVsLegacyGatePass : Bool
deriving DecidableEq

def getCoreSnapshot (report : GateReport) (minProfitFactor minTradesFloor
    minProfitableRatio minAvgWinRatePct minExpectancyKrw : ℚ)
    (useEffectiveTargets : Bool) : Except LoopErr Snapshot :=
  match report.coreFull with
  | none => .error .coreSummaryNotFound
  | some core =>
    let requested : ActiveThresholds :=
      { minProfitFactor := minProfitFactor
        minExpectancyKrw := minExpectancyKrw
        minProfitableRatio := minProfitableRatio
        minAvgWinRatePct := minAvgWinRatePct
        minAvgTrades := minTradesFloor }
    let resolved := resolveActiveThresholds report requested useEffectiveTargets
    let active := resolved.1
    let objective := computeObjectiveScore core.avgProfitFactor
      core.avgExpectancyKrw core.profitableRatio core.avgWinRatePct
      core.avgTotalTrades active.minAvgTrades active.minProfitableRatio
      active.minAvgWinRatePct active.minExpectancyKrw
    .ok { core := core, objectiveScore := objective
          activeThresholds := active, adaptiveApplied := resolved.2
          overallGatePass := report.overallGatePass
          coreVsLegacyGatePass := report.coreVsLegacyGatePass }

/-- The best candidate returned by `select_best_combo_from_tune_summary`. -/
structure BestCombo where
  comboId : String
  combo : Combo
deriving DecidableEq

/-- The external effects of one loop iteration. -/
structure IterEffects where
  elapsedAtStart : ℚ
  baseline : Except LoopErr GateReport
  elapsedBeforeTune : ℚ
  tuneResult : Except LoopErr BestCombo
  postApply : Except LoopErr GateReport
  lossAnalysisOk : Bool

/-- Loop parameters after argparse resolution and the `None`-coalescing of
the tune objective floors (lines 383-402). -/
structure LoopParams where
  maxIterations : ℤ
  maxConsecutiveNoImprovement : ℤ
  maxRuntimeMinutes : ℚ
  minProfitFactor : ℚ
  improvementEpsilon : ℚ
  skipTunePhase : Bool
  runLossAnalysis : Bool
  enableHostilityAdaptiveTargets : Bool
  tuneObjectiveMinAvgTrades : ℚ
  tuneObjectiveMinProfitableRatio : ℚ
  tuneObjectiveMinAvgWinRatePct : ℚ
  tuneObjectiveMinExpectancyKrw : ℚ

/-- One row of the iteration log (timestamp omitted). -/
structure IterRow where
  iteration : ℕ
  phase : String
  selectedCombo : String
  postApplySkippedSameCombo : Bool
  overallGatePass : Bool
  coreVsLegacyGatePass : Bool
  coreFullGatePass : Bool
  avgProfitFactor : ℚ
  avgExpectancyKrw : ℚ
  avgTotalTrades : ℚ
  avgWinRatePct : ℚ
  profitableRatio : ℚ
  objectiveScore : ℚ
  activeMinProfitFactor : ℚ
  activeMinExpectancyKrw : ℚ
  activeMinProfitableRatio : ℚ
  activeMinAvgWinRatePct : ℚ
  activeMinAvgTrades : ℚ
  targetSatisfiedFlag : Bool
deriving DecidableEq

/-- The loop variables of `main`. -/
structure LoopState where
  status : String
  reason : String
  rows : List IterRow
  bestObjective : Option ℚ
  bestSnapshot : Option Snapshot
  bestComboId : String
  lastAppliedCombo : Option Combo
  lastAppliedComboId : String
  consecutiveNoImprove : ℤ

/-- `float(obj) > best_objective + epsilon` with `best_objective` starting
at `-inf` (modelled as `none`). -/
def improvesBest (best : Option ℚ) (eps obj : ℚ) : Bool :=
  match best with
  | none => true
  | some b => decide (b + eps < obj)

/-- Build one iteration log row from a snapshot. -/
def mkIterRow (iteration : ℕ) (phase selectedCombo : String)
    (skippedSame : Bool) (snap : Snapshot) (isTarget : Bool) : IterRow :=
  { iteration := iteration
    phase := phase
    selectedCombo := selectedCombo
    postApplySkippedSameCombo := skippedSame
    overallGatePass := snap.overallGatePass
    coreVsLegacyGatePass := snap.coreVsLegacyGatePass
    coreFullGatePass := snap.core.gatePass
    avgProfitFactor := snap.core.avgProfitFactor
    avgExpectancyKrw := snap.core.avgExpectancyKrw
    avgTotalTrades := snap.core.avgTotalTrades
    avgWinRatePct := snap.core.avgWinRatePct
    profitableRatio := snap.core.profitableRatio
    objectiveScore := snap.objectiveScore
    activeMinProfitFactor := snap.activeThresholds.minProfitFactor
    activeMinExpectancyKrw := snap.activeThresholds.minExpectancyKrw
    activeMinProfitableRatio := snap.activeThresholds.minProfitableRatio
    activeMinAvgWinRatePct := snap.activeThresholds.minAvgWinRatePct
    activeMinAvgTrades := snap.activeThresholds.minAvgTrades
    targetSatisfiedFlag := isTarget }

/-- Append one iteration log row (`iterations.append(...)`). -/
def appendRow (st : LoopState) (row : IterRow) : LoopState :=
  { st with rows := st.rows ++ [row] }

/-- The best-objective update block of one iteration (shared by the
baseline and post-apply phases): on improvement record the new best and
reset the no-improvement counter, otherwise increment it. -/
def bestUpdate (p : LoopParams) (snap : Snapshot) (cid : String)
    (st : LoopState) : LoopState :=
  if improvesBest st.bestObjective p.improvementEpsilon
      snap.objectiveScore then
    { st with
      bestObjective := some snap.objectiveScore,
      bestSnapshot := some snap,
      bestComboId := cid,
      consecutiveNoImprove := 0 }
  else { st with consecutiveNoImprove := st.consecutiveNoImprove + 1 }

/-- Record the combo just applied to the config files
(`last_applied_combo` / `last_applied_combo_id`). -/
def markApplied (cid : String) (c : Combo) (st : LoopState) : LoopState :=
  { st with lastAppliedComboId := cid, lastAppliedCombo := some c }

/-- One loop iteration (the body of the `for` loop, lines 410-689).  The
returned boolean is `true` when the loop continues to the next iteration
and `false` on `break`. -/
def runIteration (p : LoopParams) (e : IterEffects) (iteration : ℕ)
    (st : LoopState) : Except LoopErr (LoopState × Bool) :=
  if e.elapsedAtStart ≥ p.maxRuntimeMinutes then
    .ok ({ st with
           status := "paused_runtime_limit",
           reason := "Max runtime exceeded before iteration start." }, false)
  else
    match e.baseline with
    | .error err => .error err
    | .ok report =>
      match getCoreSnapshot report p.minProfitFactor
          p.tuneObjectiveMinAvgTrades p.tuneObjectiveMinProfitableRatio
          p.tuneObjectiveMinAvgWinRatePct p.tuneObjectiveMinExpectancyKrw
          p.enableHostilityAdaptiveTargets with
      | .error err => .error err
      | .ok snapshot =>
        let active := snapshot.activeThresholds
        let isTarget := loopTargetSatisfied (some snapshot.core)
          active.minProfitFactor active.minExpectancyKrw
          active.minProfitableRatio active.minAvgTrades
          active.minAvgWinRatePct
        let st := appendRow st
          (mkIterRow iteration "baseline" "" false snapshot isTarget)
        let st := bestUpdate p snapshot "" st
        if isTarget && snapshot.overallGatePass then
          .ok ({ st with
                 status := "success_gate_pass",
                 reason := "Target metrics and overall gate passed on baseline run." },
            false)
        else if p.skipTunePhase then
          if st.consecutiveNoImprove ≥ p.maxConsecutiveNoImprovement then
            .ok ({ st with
                   status := "paused_no_improvement",
                   reason := "No objective improvement within limit while tune phase skipped." },
              false)
          else .ok (st, true)
        else if e.elapsedBeforeTune ≥ p.maxRuntimeMinutes then
          .ok ({ st with
                 status := "paused_runtime_limit",
                 reason := "Max runtime reached before tune phase." }, false)
        else
          match e.tuneResult with
          | .error err => .error err
          | .ok bestCombo =>
            let selectedComboId := bestCombo.comboId
            let skipPostApplyRun :=
              decide (selectedComboId = st.lastAppliedComboId) &&
              st.lastAppliedCombo.isSome &&
              decide (st.lastAppliedCombo = some bestCombo.combo)
            let postSnapshotE : Except LoopErr Snapshot :=
              if skipPostApplyRun then .ok snapshot
              else
                match e.postApply with
                | .error err => Except.error err
                | .ok postReport =>
                  match getCoreSnapshot postReport p.minProfitFactor
                      p.tuneObjectiveMinAvgTrades
                      p.tuneObjectiveMinProfitableRatio
                      p.tuneObjectiveMinAvgWinRatePct
                      p.tuneObjectiveMinExpectancyKrw
                      p.enableHostilityAdaptiveTargets with
                  | .error err => Except.error err
                  | .ok postSnap => Except.ok postSnap
            match postSnapshotE with
            | .error err => .error err
            | .ok postSnapshot =>
              let st := if skipPostApplyRun then st
                else markApplied selectedComboId bestCombo.combo st
              let postActive := postSnapshot.activeThresholds
              let postTarget := loopTargetSatisfied (some postSnapshot.core)
                postActive.minProfitFactor postActive.minExpectancyKrw
                postActive.minProfitableRatio postActive.minAvgTrades
                postActive.minAvgWinRatePct
              let st := appendRow st
                (mkIterRow iteration "post_apply" selectedComboId
                  skipPostApplyRun postSnapshot postTarget)
              let st := bestUpdate p postSnapshot bestCombo.comboId st
              if p.runLossAnalysis && !e.lossAnalysisOk then
                .error .lossAnalysisFailed
              else if postTarget && postSnapshot.overallGatePass then
                .ok ({ st with
                       status := "success_gate_pass",
                       reason := "Target metrics and overall gate passed on post-apply run." },
                  false)
              else if st.consecutiveNoImprove ≥ p.maxConsecutiveNoImprovement then
                .ok ({ st with
                       status := "paused_no_improvement",
                       reason := "Objective score did not improve within configured consecutive limit." },
                  false)
              else .ok (st, true)

/-- `for iteration in range(1, max_iterations + 1)` with `break`. -/
def runLoopIters (p : LoopParams) (orc : ℕ → IterEffects) :
    ℕ → ℕ → LoopState → Except LoopErr LoopState
  | _, 0, st => .ok st
  | i, remaining + 1, st =>
    match runIteration p (orc i) i st with
    | .error err => .error err
    | .ok (st1, continueLoop) =>
      if continueLoop then runLoopIters p orc (i + 1) remaining st1
      else .ok st1

/-- The machine-readable outcome of a loop run: the final summary status
and reason, the iteration rows, and the process exit code. -/
structure LoopOutcome where
  summaryStatus : String
  summaryReason : String
  iterations : List IterRow
  bestComboId : String
  exitCode : ℤ
deriving DecidableEq

def loopInitState : LoopState :=
  { status := "running", reason := "", rows := [], bestObjective := none
    bestSnapshot := none, bestComboId := "", lastAppliedCombo := none
    lastAppliedComboId := "", consecutiveNoImprove := 0 }

/-- `run_candidate_auto_improvement_loop.main` from the loop entry to the
summary write and `return 0` (lines 404-776; the verification lock wrap and
the summary/csv serialization are outside the modelled effects). -/
def runAutoImprovementLoop (p : LoopParams) (orc : ℕ → IterEffects) :
    Except LoopErr LoopOutcome :=
  match runLoopIters p orc 1 p.maxIterations.toNat loopInitState with
  | .error err => .error err
  | .ok st =>
    let finalPair :=
      if st.status = "running" then
        if 0 < p.maxIterations ∧ ¬st.rows.isEmpty then
          ("paused_max_iterations", "Reached MaxIterations without full gate pass.")
        else ("paused_no_data", "No iteration rows produced.")
      else (st.status, st.reason)
    .ok { summaryStatus := finalPair.1, summaryReason := finalPair.2
          iterations := st.rows, bestComboId := st.bestComboId, exitCode := 0 }

/-! ## Verification lock

`verification_lock` (_script_common.py, lines 98-151), for a process that
does not hold the reentrancy environment marker.  The acquisition loop is
modelled as a labelled transition system over two contending processes;
each step is one atomic file-system access (the exclusive `os.open`, the
`stat`, the `unlink`) or one local decision (timeout check, sleep).   The
wall clock `now` advances on `time.sleep`. -/

/-- The lock marker file: owner pid and its modification time (the
acquisition time written into it). -/
structure LockFileState where
  owner : ℕ
  mtime : ℚ
deriving DecidableEq

/-- Program counter of one process inside `verification_lock`. -/
inductive LockPC
  | tryOpen
  | judge
  | doUnlink
  | waitCheck
  | acquired
  | failedTimeout
deriving DecidableEq

structure LockProcState where
  pc : LockPC
  startTime : ℚ
deriving DecidableEq

/-- Global state: the lock file, the clock, and the two processes. -/
structure LockGState where
  file : Option LockFileState
  now : ℚ
  procA : LockProcState
  procB : LockProcState
deriving DecidableEq

def getProc (s : LockGState) (p : Bool) : LockProcState :=
  if p then s.procB else s.procA

def setProc (s : LockGState) (p : Bool) (ps : LockProcState) : LockGState :=
  if p then { s with procB := ps } else { s with procA := ps }

def setPc (s : LockGState) (p : Bool) (pc : LockPC) : LockGState :=
  setProc s p { getProc s p with pc := pc }

/-- Static configuration: timeout, staleness threshold, poll interval, and
the pid of each process. -/
structure LockCfg where
  timeoutSec : ℚ
  staleSec : ℚ
  pollSec : ℚ
  pidOf : Bool → ℕ

/-- Labels of the atomic steps of the acquisition loop. -/
inductive LockAct
  | openOk (p : Bool)
  | openFail (p : Bool)
  | statNotStale (p : Bool)
  | statStale (p : Bool)
  | statMissing (p : Bool)
  | unlinkStale (p : Bool)
  | sleepRetry (p : Bool)
  | timeoutExpire (p : Bool)
deriving DecidableEq

/-- One atomic step of one process.
`openOk`: `os.open(..., O_CREAT | O_EXCL)` succeeds because no file exists,
creating the marker and acquiring.  `openFail`: the exclusive open raises
`FileExistsError`.  `statStale`/`statNotStale`: the `stat` and age
comparison against `stale_sec`.  `statMissing`: the `stat` raises because
the file vanished (swallowed by `except: pass`).  `unlinkStale`: the
`unlink(missing_ok=True)` after observing a stale file, then `continue`.
`sleepRetry`: timeout not reached, `time.sleep(max(0.1, poll_sec))` and
retry.  `timeoutExpire`: the wait exceeded `timeout_sec`, raise. -/
inductive LockStep (cfg : LockCfg) : LockAct → LockGState → LockGState → Prop
  | openOk (p : Bool) (s : LockGState) :
      (getProc s p).pc = .tryOpen → s.file = none →
      LockStep cfg (.openOk p) s
        { setPc s p .acquired with file := some ⟨cfg.pidOf p, s.now⟩ }
  | openFail (p : Bool) (s : LockGState) (f : LockFileState) :
      (getProc s p).pc = .tryOpen → s.file = some f →
      LockStep cfg (.openFail p) s (setPc s p .judge)
  | statNotStale (p : Bool) (s : LockGState) (f : LockFileState) :
      (getProc s p).pc = .judge → s.file = some f →
      ¬ (cfg.staleSec < s.now - f.mtime) →
      LockStep cfg (.statNotStale p) s (setPc s p .waitCheck)
  | statStale (p : Bool) (s : LockGState) (f : LockFileState) :
      (getProc s p).pc = .judge → s.file = some f →
      cfg.staleSec < s.now - f.mtime →
      LockStep cfg (.statStale p) s (setPc s p .doUnlink)
  | statMissing (p : Bool) (s : LockGState) :
      (getProc s p).pc = .judge → s.file = none →
      LockStep cfg (.statMissing p) s (setPc s p .waitCheck)
  | unlinkStale (p : Bool) (s : LockGState) :
      (getProc s p).pc = .doUnlink →
      LockStep cfg (.unlinkStale p) s { setPc s p .tryOpen with file := none }
  | sleepRetry (p : Bool) (s : LockGState) :
      (getProc s p).pc = .waitCheck →
      ¬ ((getProc s p).startTime + cfg.timeoutSec ≤ s.now) →
      LockStep cfg (.sleepRetry p) s
        { setPc s p .tryOpen with now := s.now + max 0.1 cfg.pollSec }
  | timeoutExpire (p : Bool) (s : LockGState) :
      (getProc s p).pc = .waitCheck →
      (getProc s p).startTime + cfg.timeoutSec ≤ s.now →
      LockStep cfg (.timeoutExpire p) s (setPc s p .failedTimeout)

/-- A finite interleaved execution with its list of labels. -/
inductive LockSteps (cfg : LockCfg) : List LockAct → LockGState → LockGState → Prop
  | nil (s : LockGState) : LockSteps cfg [] s s
  | cons {a : LockAct} {acts : List LockAct} {s t u : LockGState} :
      LockStep cfg a s t → LockSteps cfg acts t u → LockSteps cfg (a :: acts) s u

/-- Process `p` holds the lock in state `s`. -/
def holdsLock (s : LockGState) (p : Bool) : Prop :=
  (getProc s p).pc = .acquired

/-- The ownership invariant: an acquired process is the owner of the
present lock file. -/
def lockOwnerInv (cfg : LockCfg) (s : LockGState) : Prop :=
  ∀ p : Bool, holdsLock s p → ∃ f, s.file = some f ∧ f.owner = cfg.pidOf p

/-- Cache-content consistency with a combo list: any cached row whose key
fingerprint matches a combo of the run carries that combo's id.  This holds
for every cache produced by the pipeline itself, since rows are stored
under the fingerprint of the combo that produced them. -/
def entriesConsistent (combos : List Combo) (entries : CacheEntries) : Prop :=
  ∀ e ∈ entries, ∀ c ∈ combos,
    e.1.comboFingerprint = comboFingerprint c → e.2.comboId = c.comboId

/-! ## Concrete sample instances

Small closed values used to instantiate theorems with hypotheses on
concrete inputs.  All rational fields are integral so that kernel
reduction of decidable equalities succeeds. -/

def sampleCombo : Combo where
  comboId := "c1"
  description := "sample"
  maxNewOrdersPerScan := 2
  minExpectedEdgePct := 1
  minRewardRisk := 1
  minRrWeakSignal := 2
  minRrStrongSignal := 1
  minStrategyTradesForEv := 30
  minStrategyExpectancyKrw := 0
  minStrategyProfitFactor := 1
  avoidHighVolatility := true
  avoidTrendingDown := true
  hostilityEwmaAlpha := 0
  hostilityHostileThreshold := 1
  hostilitySevereThreshold := 1
  hostilityExtremeThreshold := 1
  hostilityPauseScans := 4
  hostilityPauseScansExtreme := 6
  hostilityPauseRecentSampleMin := 10
  hostilityPauseRecentExpectancyKrw := 0
  hostilityPauseRecentWinRate := 0
  backtestHostilityPauseCandles := 36
  backtestHostilityPauseCandlesExtreme := 60
  scalpingMinSignalStrength := 1
  momentumMinSignalStrength := 1
  breakoutMinSignalStrength := 0
  meanReversionMinSignalStrength := 0

def sampleSummary : ProfileSummary where
  profileId := "core_full"
  runsUsedForGate := 1
  excludedLowTradeRuns := 0
  avgProfitFactor := 1
  avgExpectancyKrw := 0
  avgTotalTrades := 0
  avgWinRatePct := 0
  profitableRatio := 0
  gateProfitFactorPass := false
  gateTradesPass := false
  gateProfitableRatioPass := false
  gateExpectancyPass := false

def sampleReport : MatrixReport where
  overallGatePass := false
  profileGatePass := false
  profileSummaries := [sampleSummary]
  thresholds := none

def sampleEnv : TuneEnv where
  runMatrix := fun _ => .ok sampleReport
  fsExists := fun _ => true
  mergeConfig := fun s _ => s ++ "#merged"
  sigHash := fun _ => "sig"
  lockAvailable := true

def sampleParams : TuneParams where
  screenDatasetLimit := 1
  screenTopK := 1
  gateMinAvgTrades := 8
  objectiveMinAvgTrades := 8
  objectiveMinProfitableRatio := 0
  objectiveMinAvgWinRatePct := 48
  objectiveMinExpectancyKrw := 0
  objectiveMode := .balanced
  useEffectiveThresholdsForObjective := true
  requireHigherTfCompanions := true
  enableHostilityAdaptiveThresholds := true
  enableHostilityAdaptiveTradesOnly := true
  matrixMaxWorkers := 1
  matrixBacktestRetryCount := 2
  cacheEnabled := true
  screenProfileIds := ["core_full"]
  finalProfileIds := ["core_full"]
  outputDir := "out"
  baseConfigHash := "basehash"

/-- `sampleParams` with the cache disabled (used where kernel evaluation
must avoid cache-key comparisons). -/
def sampleParamsNoCache : TuneParams :=
  { sampleParams with cacheEnabled := false }

/-- `sampleParams` with screening off (`screen_dataset_limit = 0`). -/
def sampleParamsScreenOff : TuneParams :=
  { sampleParams with cacheEnabled := false, screenDatasetLimit := 0 }

/-- A stored cache row for `sampleCombo` at the screen stage. -/
def sampleStoredRow : EvalRow where
  comboId := "c1"
  description := "sample"
  stage := "screen"
  targetProfile := "core_full"
  overallGatePass := false
  profileGatePass := false
  runsUsedForGate := 1
  excludedLowTradeRuns := 0
  avgProfitFactor := 1
  avgExpectancyKrw := 0
  avgTotalTrades := 0
  avgWinRatePct := 0
  profitableRatio := 0
  gateProfitFactorPass := false
  gateTradesPass := false
  gateProfitableRatioPass := false
  gateExpectancyPass := false
  effectiveMinProfitFactor := 1
  effectiveMinExpectancyKrw := 0
  effectiveMinProfitableRatio := 0
  effectiveMinAvgWinRatePct := 48
  effectiveMinAvgTrades := 8
  hostilityLevel := "unknown"
  hostilityAvgScore := 0
  reportJson := "r.json"
  profileCsv := "p.csv"
  matrixCsv := "m.csv"
  fromCache := false
  objectiveScore := 0
  objectiveEffectiveMinAvgTrades := 0
  objectiveEffectiveMinProfitableRatio := 0
  objectiveEffectiveMinAvgWinRatePct := 0
  objectiveEffectiveMinExpectancyKrw := 0
  constraintPass := false
  screenObjectiveScore := 0
  screenAvgTotalTrades := 0
  screenProfitableRatio := 0
  screenAvgWinRatePct := 0

/-- A tune state whose cache already holds `sampleStoredRow` for
`sampleCombo` at the screen stage. -/
def sampleStateWithEntry : TuneState where
  config := "origcfg"
  entries := [(evalCacheKey sampleParams sampleCombo "screen" ["core_full"] "sig",
    sampleStoredRow)]
  evalTrace := []
  matrixCalls := []

/-- Loop parameters with `max_iterations = 0`. -/
def sampleLoopParamsZero : LoopParams where
  maxIterations := 0
  maxConsecutiveNoImprovement := 2
  maxRuntimeMinutes := 120
  minProfitFactor := 1
  improvementEpsilon := 0
  skipTunePhase := false
  runLossAnalysis := false
  enableHostilityAdaptiveTargets := true
  tuneObjectiveMinAvgTrades := 8
  tuneObjectiveMinProfitableRatio := 0
  tuneObjectiveMinAvgWinRatePct := 48
  tuneObjectiveMinExpectancyKrw := 0

/-- A trivial iteration-effects oracle (never consulted when
`max_iterations = 0`). -/
def sampleIterEffects : ℕ → IterEffects := fun _ =>
  { elapsedAtStart := 0
    baseline := .error .realdataFailed
    elapsedBeforeTune := 0
    tuneResult := .error .tuneFailed
    postApply := .error .realdataFailed
    lossAnalysisOk := true }

/-- Lock configuration used in the concrete interleavings: timeout 1000s,
staleness threshold 10s, poll 1s, pids 1 and 2. -/
def sampleLockCfg : LockCfg where
  timeoutSec := 1000
  staleSec := 10
  pollSec := 1
  pidOf := fun p => if p then 2 else 1

/-- Initial lock state: a leftover (stale) marker file owned by pid 99
written at time 0, clock at 20, both processes starting. -/
def staleLockInit : LockGState where
  file := some { owner := 99, mtime := 0 }
  now := 20
  procA := { pc := .tryOpen, startTime := 20 }
  procB := { pc := .tryOpen, startTime := 20 }

/-!
# Theorems

Helper lemmas first, then one theorem (plus witness or counterexample)
per claim C1-C10.
-/

/-! ### Rounding lemmas -/

theorem roundHalfEven_intCast (n : ℤ) : roundHalfEven (n : ℚ) = n := by
  unfold roundHalfEven
  norm_num

theorem round6_intCast (n : ℤ) : round6 (n : ℚ) = (n : ℚ) := by
  unfold round6 roundTo
  have h : (n : ℚ) * (10 : ℚ) ^ (6 : ℕ) = ((n * 1000000 : ℤ) : ℚ) := by
    push_cast
    ring
  rw [h, roundHalfEven_intCast]
  push_cast
  ring

theorem roundHalfEven_nonneg {q : ℚ} (h : 0 ≤ q) : 0 ≤ roundHalfEven q := by
  simp only [roundHalfEven]
  have hf : (0 : ℤ) ≤ ⌊q⌋ ∨ ⌊q⌋ < 0 := le_or_lt 0 ⌊q⌋
  have h0 : (0 : ℤ) ≤ ⌊q⌋ := Int.floor_nonneg.mpr h
  split
  · exact h0
  · split
    · omega
    · split <;> omega

theorem roundHalfEven_le_ceil (q : ℚ) : roundHalfEven q ≤ ⌈q⌉ := by
  simp only [roundHalfEven]
  have hfc : ⌊q⌋ ≤ ⌈q⌉ := Int.floor_le_ceil q
  have hql : (⌊q⌋ : ℚ) ≤ q := Int.floor_le q
  split
  · exact hfc
  · rename_i h1
    have hlt : (⌊q⌋ : ℚ) < q := by
      by_contra hcon
      push_neg at hcon
      have : q = (⌊q⌋ : ℚ) := le_antisymm hcon hql
      rw [this] at h1
      norm_num at h1
    have hceil : ⌊q⌋ + 1 ≤ ⌈q⌉ := by
      have hqc : q ≤ (⌈q⌉ : ℚ) := Int.le_ceil q
      have : (⌊q⌋ : ℚ) < (⌈q⌉ : ℚ) := lt_of_lt_of_le hlt hqc
      exact_mod_cast Int.add_one_le_iff.mpr (by exact_mod_cast this)
    split
    · exact hceil
    · split <;> omega

/-- Constructor disequality used to reduce the balanced-mode branch. -/
theorem balancedModeNe :
    (ObjectiveMode.balanced = ObjectiveMode.profitable_ratio_priority) = False := by
  simp

/-- C10: the two independently implemented objective scorers agree in
balanced mode: for all numeric inputs, the auto-improvement loop's
`compute_objective_score` returns exactly the value of the tune script's
`compute_combo_objective` on the same metrics and floors with
`objective_mode = "balanced"`, so both components rank candidates
identically in balanced mode. -/
theorem computeObjectiveScore_eq_balanced_computeComboObjective
    (pf exp ratio win trades tMin rMin wMin eMin : ℚ) :
    computeObjectiveScore pf exp ratio win trades tMin rMin wMin eMin =
    computeComboObjective pf exp ratio trades win tMin rMin wMin eMin
      .balanced := by
  rfl

/-- C1: evaluation of both objective scorers at the failing input.  Row A
(profit factor 1, expectancy 0, profitable ratio 1/2, trades 8, win rate
48) violates no floor of (min trades 8, min ratio 1/2, min win rate 48,
min expectancy 0), yet scores 4240, strictly below the 7600 of row B
(profit factor 2000, expectancy 1000, ratio 1, trades 0, win rate 100),
which violates the trades floor (0 < 8).  The infeasible-branch tie-break
term `avg_profit_factor * 10` can exceed the floor penalties, so an
infeasible row can outrank a feasible one, contradicting the claimed
monotonic ordering (and the source comment "Keep all infeasible combos
below feasible ones"). -/
theorem objectiveScorer_infeasible_outranks_feasible :
    ((8 : ℚ) ≥ 8 ∧ (1/2 : ℚ) ≥ 1/2 ∧ (48 : ℚ) ≥ 48 ∧ (0 : ℚ) ≥ 0 ∧
      (1 : ℚ) ≥ 1) ∧
    (0 : ℚ) < 8 ∧
    computeComboObjective 1 0 (1/2) 8 48 8 (1/2) 48 0 .balanced = 4240 ∧
    computeComboObjective 2000 1000 1 0 100 8 (1/2) 48 0 .balanced = 7600 ∧
    computeComboObjective 1 0 (1/2) 8 48 8 (1/2) 48 0 .balanced <
      computeComboObjective 2000 1000 1 0 100 8 (1/2) 48 0 .balanced ∧
    computeObjectiveScore 1 0 (1/2) 48 8 8 (1/2) 48 0 <
      computeObjectiveScore 2000 1000 1 100 0 8 (1/2) 48 0 := by
  have hA : computeComboObjective 1 0 (1/2) 8 48 8 (1/2) 48 0 .balanced = 4240 := by
    norm_num [computeComboObjective, balancedModeNe, round6, roundTo, roundHalfEven]
  have hB : computeComboObjective 2000 1000 1 0 100 8 (1/2) 48 0 .balanced = 7600 := by
    norm_num [computeComboObjective, balancedModeNe, round6, roundTo, roundHalfEven]
  have hA2 : computeObjectiveScore 1 0 (1/2) 48 8 8 (1/2) 48 0 = 4240 := by
    norm_num [computeObjectiveScore, round6, roundTo, roundHalfEven]
  have hB2 : computeObjectiveScore 2000 1000 1 100 0 8 (1/2) 48 0 = 7600 := by
    norm_num [computeObjectiveScore, round6, roundTo, roundHalfEven]
  refine ⟨⟨le_refl _, le_refl _, le_refl _, le_refl _, le_refl _⟩,
    by norm_num, hA, hB, ?_, ?_⟩
  · rw [hA, hB]; norm_num
  · rw [hA2, hB2]; norm_num

/-- C2: on every exit path of a tuning run after the original build
configuration content was read, the shared build configuration file content
is restored to exactly its pre-run content: whether lock acquisition times
out, the funnel body raises at any point (after having applied candidate
combos to the configuration), or the run completes, the final configuration
state equals `original`. -/
theorem tuneScript_config_restored (env : TuneEnv) (p : TuneParams)
    (combos : List Combo) (datasets : List String) (original : String)
    (initialEntries : CacheEntries) :
    (runTuneScript env p combos datasets original initialEntries).2.config =
      original := by
  simp only [runTuneScript]
  split
  · rfl
  · rcases hb : runTuningBody env p combos datasets original
      { config := original, entries := initialEntries, evalTrace := []
        matrixCalls := [] } with ⟨res, st⟩
    cases res with
    | error e => simp [hb]
    | ok out =>
      rcases out with ⟨screenRows, finalRows⟩
      simp only [hb]
      split <;> rfl

/-! ### Cache dictionary lemmas -/

theorem cacheLookup_map_replace (k : CacheKey) (row : EvalRow) :
    ∀ entries : CacheEntries, (cacheLookup entries k).isSome = true →
      cacheLookup
        (entries.map (fun e => if e.1 = k then (k, row) else e)) k =
        some row := by
  intro entries
  induction entries with
  | nil => simp [cacheLookup]
  | cons e rest ih =>
    intro hsome
    by_cases he : e.1 = k
    · simp [cacheLookup, List.find?, he]
    · have hsome2 : (cacheLookup rest k).isSome = true := by
        simpa [cacheLookup, List.find?, he] using hsome
      simpa [cacheLookup, List.find?, he] using ih hsome2

theorem cacheLookup_append_single (k : CacheKey) (row : EvalRow) :
    ∀ entries : CacheEntries, cacheLookup entries k = none →
      cacheLookup (entries ++ [(k, row)]) k = some row := by
  intro entries
  induction entries with
  | nil => simp [cacheLookup, List.find?]
  | cons e rest ih =>
    intro hnone
    by_cases he : e.1 = k
    · simp [cacheLookup, List.find?, he] at hnone
    · have hnone2 : cacheLookup rest k = none := by
        simpa [cacheLookup, List.find?, he] using hnone
      simpa [cacheLookup, List.find?, he] using ih hnone2

theorem cacheLookup_insert_self (k : CacheKey) (row : EvalRow)
    (entries : CacheEntries) :
    cacheLookup (cacheInsert entries k row) k = some row := by
  unfold cacheInsert
  split
  · rename_i hsome
    apply cacheLookup_map_replace
    simpa [cacheLookup] using hsome
  · rename_i hnone
    apply cacheLookup_append_single
    have h2 : entries.find? (fun e => decide (e.1 = k)) = none := by
      rcases hfind : entries.find? (fun e => decide (e.1 = k)) with _ | v
      · exact hfind
      · rw [hfind] at hnone
        simp at hnone
    simp [cacheLookup, h2]

/-! ### Evaluator lemmas -/

theorem evalComboFresh_matrixCalls (env : TuneEnv) (p : TuneParams)
    (original : String) (combo : Combo) (datasets : List String)
    (stageName : String) (profileIds : List String) (key : CacheKey)
    (st : TuneState) :
    ∃ call, (evalComboFresh env p original combo datasets stageName
      profileIds key st).2.matrixCalls = st.matrixCalls ++ [call] := by
  simp only [evalComboFresh]
  split
  · exact ⟨_, rfl⟩
  · split
    · exact ⟨_, rfl⟩
    · cases hc2 : p.cacheEnabled
      · exact ⟨_, rfl⟩
      · exact ⟨_, rfl⟩

theorem evalComboFresh_ok (env : TuneEnv) (p : TuneParams)
    (original : String) (combo : Combo) (datasets : List String)
    (stageName : String) (profileIds : List String) (key : CacheKey)
    (st : TuneState) (row : EvalRow) (st' : TuneState)
    (h : evalComboFresh env p original combo datasets stageName profileIds
      key st = (.ok row, st')) :
    row.fromCache = false ∧ row.comboId = combo.comboId ∧
    row.stage = stageName ∧
    st'.evalTrace = st.evalTrace ∧
    (∃ call, st'.matrixCalls = st.matrixCalls ++ [call]) ∧
    (p.cacheEnabled = true → cacheLookup st'.entries key = some row) := by
  simp only [evalComboFresh] at h
  split at h
  · simp at h
  · split at h
    · simp at h
    · rw [Prod.mk.injEq] at h
      obtain ⟨hrow, hst⟩ := h
      injection hrow with hrow
      subst hrow
      subst hst
      refine ⟨rfl, rfl, rfl, by split <;> rfl, ?_, ?_⟩
      · split
        · exact ⟨_, rfl⟩
        · exact ⟨_, rfl⟩
      · intro hc
        simp only [hc, if_pos]
        exact cacheLookup_insert_self _ _ _

theorem evaluateCombo_hit (env : TuneEnv) (p : TuneParams) (original : String)
    (c : Combo) (ds : List String) (stage : String) (pids : List String)
    (sig : String) (st : TuneState) (cached : EvalRow)
    (hc : p.cacheEnabled = true)
    (hl : cacheLookup st.entries (evalCacheKey p c stage pids sig) = some cached)
    (h1 : env.fsExists cached.reportJson = true)
    (h2 : env.fsExists cached.profileCsv = true)
    (h3 : env.fsExists cached.matrixCsv = true) :
    evaluateCombo env p original c ds stage pids sig st =
      (.ok { cached with fromCache := true },
       { st with evalTrace := st.evalTrace ++ [(stage, c.comboId, ds)] }) := by
  simp only [evaluateCombo, hc, if_true, hl]
  rw [if_pos ⟨h1, h2, h3⟩]

theorem evaluateCombo_miss_eq (env : TuneEnv) (p : TuneParams)
    (original : String) (c : Combo) (ds : List String) (stage : String)
    (pids : List String) (sig : String) (st : TuneState)
    (hc : p.cacheEnabled = true)
    (hl : cacheLookup st.entries (evalCacheKey p c stage pids sig) = none) :
    evaluateCombo env p original c ds stage pids sig st =
      evalComboFresh env p original c ds stage pids
        (evalCacheKey p c stage pids sig)
        { st with evalTrace := st.evalTrace ++ [(stage, c.comboId, ds)] } := by
  simp only [evaluateCombo, hc, if_true, hl]

theorem evaluateCombo_evict_eq (env : TuneEnv) (p : TuneParams)
    (original : String) (c : Combo) (ds : List String) (stage : String)
    (pids : List String) (sig : String) (st : TuneState) (cached : EvalRow)
    (hc : p.cacheEnabled = true)
    (hl : cacheLookup st.entries (evalCacheKey p c stage pids sig) = some cached)
    (hmiss : ¬(env.fsExists cached.reportJson = true ∧
      env.fsExists cached.profileCsv = true ∧
      env.fsExists cached.matrixCsv = true)) :
    evaluateCombo env p original c ds stage pids sig st =
      evalComboFresh env p original c ds stage pids
        (evalCacheKey p c stage pids sig)
        { st with
          evalTrace := st.evalTrace ++ [(stage, c.comboId, ds)],
          entries := cacheErase st.entries (evalCacheKey p c stage pids sig) } := by
  simp only [evaluateCombo, hc, if_true, hl]
  rw [if_neg hmiss]

/-- C5: cache hit and eviction semantics of `evaluate_combo` with caching
enabled.  (i) A lookup hit whose three recorded artifact paths all exist
returns the previously stored row (marked `from_cache`) with no external
matrix invocation and the cache unchanged.  (ii) A hit with any missing
artifact is treated as absent: the evaluator is invoked again and a fresh
row replaces the entry.  (iii) A miss invokes the evaluator and stores the
fresh row under the key.  (iv) Consequently, evaluating the same candidate
twice under an identical `EvaluationContext` (identical cache key) returns
the stored row the second time, with no second matrix invocation. -/
theorem evaluateCombo_cache_semantics (env : TuneEnv) (p : TuneParams)
    (original : String) (c : Combo) (ds : List String) (stage : String)
    (pids : List String) (sig : String) (st : TuneState)
    (hc : p.cacheEnabled = true) :
    (∀ cached, cacheLookup st.entries (evalCacheKey p c stage pids sig) = some cached →
      env.fsExists cached.reportJson = true →
      env.fsExists cached.profileCsv = true →
      env.fsExists cached.matrixCsv = true →
      evaluateCombo env p original c ds stage pids sig st =
        (.ok { cached with fromCache := true },
         { st with evalTrace := st.evalTrace ++ [(stage, c.comboId, ds)] })) ∧
    (∀ cached, cacheLookup st.entries (evalCacheKey p c stage pids sig) = some cached →
      ¬(env.fsExists cached.reportJson = true ∧
        env.fsExists cached.profileCsv = true ∧
        env.fsExists cached.matrixCsv = true) →
      (∃ call, (evaluateCombo env p original c ds stage pids sig st).2.matrixCalls =
        st.matrixCalls ++ [call]) ∧
      (∀ row st', evaluateCombo env p original c ds stage pids sig st = (.ok row, st') →
        row.fromCache = false ∧ row.comboId = c.comboId ∧
        cacheLookup st'.entries (evalCacheKey p c stage pids sig) = some row)) ∧
    (cacheLookup st.entries (evalCacheKey p c stage pids sig) = none →
      (∃ call, (evaluateCombo env p original c ds stage pids sig st).2.matrixCalls =
        st.matrixCalls ++ [call]) ∧
      (∀ row st', evaluateCombo env p original c ds stage pids sig st = (.ok row, st') →
        row.fromCache = false ∧ row.comboId = c.comboId ∧
        cacheLookup st'.entries (evalCacheKey p c stage pids sig) = some row)) ∧
    (∀ row st1, cacheLookup st.entries (evalCacheKey p c stage pids sig) = none →
      evaluateCombo env p original c ds stage pids sig st = (.ok row, st1) →
      env.fsExists row.reportJson = true →
      env.fsExists row.profileCsv = true →
      env.fsExists row.matrixCsv = true →
      evaluateCombo env p original c ds stage pids sig st1 =
        (.ok { row with fromCache := true },
         { st1 with evalTrace := st1.evalTrace ++ [(stage, c.comboId, ds)] })) := by
  refine ⟨?_, ?_, ?_, ?_⟩
  · intro cached hl h1 h2 h3
    exact evaluateCombo_hit env p original c ds stage pids sig st cached hc hl h1 h2 h3
  · intro cached hl hmiss
    rw [evaluateCombo_evict_eq env p original c ds stage pids sig st cached hc hl hmiss]
    constructor
    · exact evalComboFresh_matrixCalls env p original c ds stage pids _ _
    · intro row st' hok
      obtain ⟨hfc, hid, _, _, _, hstore⟩ :=
        evalComboFresh_ok env p original c ds stage pids _ _ row st' hok
      exact ⟨hfc, hid, hstore hc⟩
  · intro hl
    rw [evaluateCombo_miss_eq env p original c ds stage pids sig st hc hl]
    constructor
    · exact evalComboFresh_matrixCalls env p original c ds stage pids _ _
    · intro row st' hok
      obtain ⟨hfc, hid, _, _, _, hstore⟩ :=
        evalComboFresh_ok env p original c ds stage pids _ _ row st' hok
      exact ⟨hfc, hid, hstore hc⟩
  · intro row st1 hl heval h1 h2 h3
    rw [evaluateCombo_miss_eq env p original c ds stage pids sig st hc hl] at heval
    obtain ⟨hfc, hid, _, _, _, hstore⟩ :=
      evalComboFresh_ok env p original c ds stage pids _ _ row st1 heval
    exact evaluateCombo_hit env p original c ds stage pids sig st1 row hc
      (hstore hc) h1 h2 h3

/-- Witness for C5: a concrete cache hit returns the stored row unchanged
except for the `from_cache` marker, with no state change beyond the
evaluation trace. -/
theorem evaluateCombo_cache_semantics_witness :
    evaluateCombo sampleEnv sampleParams "origcfg" sampleCombo ["a"] "screen"
      ["core_full"] "sig" sampleStateWithEntry =
      (.ok { sampleStoredRow with fromCache := true },
       { sampleStateWithEntry with
         evalTrace := [("screen", "c1", ["a"])] }) := by
  have h := (evaluateCombo_cache_semantics sampleEnv sampleParams "origcfg"
    sampleCombo ["a"] "screen" ["core_full"] "sig" sampleStateWithEntry rfl).1
  exact h sampleStoredRow rfl rfl rfl rfl

/-! ### Stable sort lemmas -/

theorem insertSorted_perm (le : α → α → Bool) (x : α) :
    ∀ l : List α, (insertSorted le x l).Perm (x :: l) := by
  intro l
  induction l with
  | nil => exact List.Perm.refl _
  | cons y ys ih =>
    simp only [insertSorted]
    split
    · exact List.Perm.refl _
    · exact (ih.cons y).trans (List.Perm.swap x y ys)

theorem stableSort_perm (le : α → α → Bool) :
    ∀ l : List α, (stableSort le l).Perm l := by
  intro l
  induction l with
  | nil => exact List.Perm.refl _
  | cons x xs ih =>
    simp only [stableSort]
    exact (insertSorted_perm le x (stableSort le xs)).trans (ih.cons x)

theorem stableSort_length (le : α → α → Bool) (l : List α) :
    (stableSort le l).length = l.length :=
  (stableSort_perm le l).length_eq

theorem stableSort_map_perm (f : α → β) (le : α → α → Bool) (l : List α) :
    ((stableSort le l).map f).Perm (l.map f) :=
  (stableSort_perm le l).map f

/-! ### Evaluator state lemmas -/

theorem evalComboFresh_evalTrace (env : TuneEnv) (p : TuneParams)
    (original : String) (combo : Combo) (datasets : List String)
    (stageName : String) (profileIds : List String) (key : CacheKey)
    (st : TuneState) :
    (evalComboFresh env p original combo datasets stageName profileIds key
      st).2.evalTrace = st.evalTrace := by
  simp only [evalComboFresh]
  split
  · rfl
  · split
    · rfl
    · cases hc2 : p.cacheEnabled
      · rfl
      · rfl

theorem evaluateCombo_evalTrace (env : TuneEnv) (p : TuneParams)
    (original : String) (c : Combo) (ds : List String) (stage : String)
    (pids : List String) (sig : String) (st : TuneState) :
    (evaluateCombo env p original c ds stage pids sig st).2.evalTrace =
      st.evalTrace ++ [(stage, c.comboId, ds)] := by
  simp only [evaluateCombo]
  split
  · split
    · rfl
    · rw [evalComboFresh_evalTrace]
  · rw [evalComboFresh_evalTrace]

theorem cacheLookup_mem (entries : CacheEntries) (k : CacheKey) (r : EvalRow)
    (h : cacheLookup entries k = some r) : (k, r) ∈ entries := by
  unfold cacheLookup at h
  rcases hf : entries.find? (fun e => decide (e.1 = k)) with _ | e
  · rw [hf] at h
    simp at h
  · rw [hf] at h
    have h2 : e.2 = r := by simpa using h
    have hmem := List.mem_of_find?_eq_some hf
    have hpred := List.find?_some hf
    simp only [decide_eq_true_eq] at hpred
    have : e = (k, r) := by
      rcases e with ⟨ek, er⟩
      simp only at hpred h2
      rw [hpred, h2]
    rw [this] at hmem
    exact hmem

theorem entriesConsistent_erase (combos : List Combo) (entries : CacheEntries)
    (k : CacheKey) (h : entriesConsistent combos entries) :
    entriesConsistent combos (cacheErase entries k) := by
  intro e he c hcm hfp
  exact h e (List.mem_of_mem_filter he) c hcm hfp

theorem entriesConsistent_insert (combos : List Combo) (entries : CacheEntries)
    (c : Combo) (k : CacheKey) (row : EvalRow)
    (hfpn : (combos.map comboFingerprint).Nodup)
    (hcm : c ∈ combos) (hk : k.comboFingerprint = comboFingerprint c)
    (hrow : row.comboId = c.comboId)
    (h : entriesConsistent combos entries) :
    entriesConsistent combos (cacheInsert entries k row) := by
  have hnew : ∀ c2 ∈ combos, k.comboFingerprint = comboFingerprint c2 →
      row.comboId = c2.comboId := by
    intro c2 hc2 hfp2
    have hinj := List.inj_on_of_nodup_map hfpn
    have : c = c2 := hinj hcm hc2 (by rw [← hk, hfp2])
    rw [hrow, this]
  intro e he c2 hc2 hfp2
  unfold cacheInsert at he
  split at he
  · rcases List.mem_map.mp he with ⟨e0, he0, heq⟩
    by_cases h0 : e0.1 = k
    · rw [if_pos h0] at heq
      rw [← heq] at hfp2 ⊢
      exact hnew c2 hc2 hfp2
    · rw [if_neg h0] at heq
      rw [← heq] at hfp2 ⊢
      exact h e0 he0 c2 hc2 hfp2
  · rcases List.mem_append.mp he with h1 | h1
    · exact h e h1 c2 hc2 hfp2
    · have : e = (k, row) := by simpa using h1
      rw [this] at hfp2 ⊢
      exact hnew c2 hc2 hfp2

theorem evalComboFresh_entries_shape (env : TuneEnv) (p : TuneParams)
    (original : String) (combo : Combo) (datasets : List String)
    (stageName : String) (profileIds : List String) (key : CacheKey)
    (st : TuneState) :
    (evalComboFresh env p original combo datasets stageName profileIds key
      st).2.entries = st.entries ∨
    ∃ row, (evalComboFresh env p original combo datasets stageName profileIds
      key st).2.entries = cacheInsert st.entries key row ∧
      row.comboId = combo.comboId := by
  simp only [evalComboFresh]
  split
  · exact Or.inl rfl
  · split
    · exact Or.inl rfl
    · cases hc2 : p.cacheEnabled
      · exact Or.inl rfl
      · exact Or.inr ⟨_, rfl, rfl⟩

theorem evaluateCombo_consistent (env : TuneEnv) (p : TuneParams)
    (original : String) (c : Combo) (ds : List String) (stage : String)
    (pids : List String) (sig : String) (st : TuneState)
    (combos : List Combo) (hfpn : (combos.map comboFingerprint).Nodup)
    (hcm : c ∈ combos) (hcons : entriesConsistent combos st.entries) :
    entriesConsistent combos
      (evaluateCombo env p original c ds stage pids sig st).2.entries := by
  have hkey : (evalCacheKey p c stage pids sig).comboFingerprint =
      comboFingerprint c := rfl
  have hfresh : ∀ st0 : TuneState, entriesConsistent combos st0.entries →
      entriesConsistent combos (evalComboFresh env p original c ds stage pids
        (evalCacheKey p c stage pids sig) st0).2.entries := by
    intro st0 h0
    rcases evalComboFresh_entries_shape env p original c ds stage pids
      (evalCacheKey p c stage pids sig) st0 with hsh | ⟨row, hsh, hrow⟩
    · rw [hsh]; exact h0
    · rw [hsh]
      exact entriesConsistent_insert combos st0.entries c _ row hfpn hcm hkey
        hrow h0
  simp only [evaluateCombo]
  split
  · split
    · exact hcons
    · exact hfresh _ (entriesConsistent_erase combos st.entries _ hcons)
  · exact hfresh _ hcons

theorem evaluateCombo_ok_comboId (env : TuneEnv) (p : TuneParams)
    (original : String) (c : Combo) (ds : List String) (stage : String)
    (pids : List String) (sig : String) (st : TuneState)
    (combos : List Combo) (hcm : c ∈ combos)
    (hcons : entriesConsistent combos st.entries)
    (row : EvalRow) (st' : TuneState)
    (hok : evaluateCombo env p original c ds stage pids sig st =
      (.ok row, st')) : row.comboId = c.comboId := by
  simp only [evaluateCombo] at hok
  split at hok
  · rename_i cached hl
    have hl2 : cacheLookup st.entries (evalCacheKey p c stage pids sig) =
        some cached := by
      cases hce : p.cacheEnabled
      · rw [hce] at hl
        simp at hl
      · rw [hce] at hl
        simpa using hl
    have hmem := cacheLookup_mem st.entries _ cached hl2
    have hcid : cached.comboId = c.comboId :=
      hcons _ hmem c hcm rfl
    split at hok
    · rw [Prod.mk.injEq] at hok
      obtain ⟨hrow, _⟩ := hok
      injection hrow with hrow
      rw [← hrow]
      exact hcid
    · obtain ⟨_, hid, _⟩ := evalComboFresh_ok env p original c ds stage pids
        _ _ row st' hok
      exact hid
  · obtain ⟨_, hid, _⟩ := evalComboFresh_ok env p original c ds stage pids
      _ _ row st' hok
    exact hid

/-- The generic shape shared by `screenStep` and `finalStep`: evaluate one
combo on a fixed dataset list / stage / profile set and post-process the
row with a function that preserves the combo id. -/
theorem runEvalLoop_facts (env : TuneEnv) (p : TuneParams) (original : String)
    (dsF : List String) (stageF : String) (pidsF : List String)
    (sigF : String) (F : EvalRow → EvalRow)
    (hF : ∀ r, (F r).comboId = r.comboId)
    (step : Combo → TuneState → Except TuneErr EvalRow × TuneState)
    (hstep : ∀ c st, step c st =
      match evaluateCombo env p original c dsF stageF pidsF sigF st with
      | (.error e, st1) => (.error e, st1)
      | (.ok row, st1) => (.ok (F row), st1))
    (combos : List Combo) (hfpn : (combos.map comboFingerprint).Nodup) :
    ∀ (iter : List Combo) (st : TuneState) (rows : List EvalRow)
      (st' : TuneState),
      (∀ c ∈ iter, c ∈ combos) → entriesConsistent combos st.entries →
      runEvalLoop step iter st = (.ok rows, st') →
      st'.evalTrace = st.evalTrace ++
        iter.map (fun c => (stageF, c.comboId, dsF)) ∧
      rows.map EvalRow.comboId = iter.map Combo.comboId ∧
      entriesConsistent combos st'.entries := by
  intro iter
  induction iter with
  | nil =>
    intro st rows st' _ hcons hrun
    simp only [runEvalLoop] at hrun
    rw [Prod.mk.injEq] at hrun
    obtain ⟨h1, h2⟩ := hrun
    injection h1 with h1
    subst h2
    rw [← h1]
    exact ⟨by simp, by simp, hcons⟩
  | cons c rest ih =>
    intro st rows st' hsub hcons hrun
    simp only [runEvalLoop, hstep] at hrun
    rcases heval : evaluateCombo env p original c dsF stageF pidsF sigF st
      with ⟨res1, st1⟩
    rw [heval] at hrun
    cases res1 with
    | error e => simp at hrun
    | ok row0 =>
      simp only at hrun
      rcases hrec : runEvalLoop step rest st1 with ⟨res2, st2⟩
      rw [hrec] at hrun
      cases res2 with
      | error e => simp at hrun
      | ok rows2 =>
        simp only [Prod.mk.injEq] at hrun
        obtain ⟨h1, h2⟩ := hrun
        injection h1 with h1
        subst h2
        have hcm : c ∈ combos := hsub c (List.mem_cons_self c rest)
        have hcons1 : entriesConsistent combos st1.entries := by
          have := evaluateCombo_consistent env p original c dsF stageF pidsF
            sigF st combos hfpn hcm hcons
          rw [heval] at this
          exact this
        have htr1 : st1.evalTrace = st.evalTrace ++ [(stageF, c.comboId, dsF)] := by
          have := evaluateCombo_evalTrace env p original c dsF stageF pidsF
            sigF st
          rw [heval] at this
          exact this
        have hid0 : row0.comboId = c.comboId :=
          evaluateCombo_ok_comboId env p original c dsF stageF pidsF sigF st
            combos hcm hcons row0 st1 heval
        obtain ⟨htr2, hids2, hcons2⟩ := ih st1 rows2 st2
          (fun x hx => hsub x (List.mem_cons_of_mem c hx)) hcons1 hrec
        refine ⟨?_, ?_, hcons2⟩
        · rw [htr2, htr1]
          simp
        · rw [← h1]
          simp only [List.map_cons, hids2, hF, hid0]

theorem scoreScreenRow_comboId (p : TuneParams) (r : EvalRow) :
    (scoreScreenRow p r).comboId = r.comboId := rfl

theorem scoreFinalRow_comboId (p : TuneParams) (rows : List EvalRow)
    (r : EvalRow) : (scoreFinalRow p rows r).comboId = r.comboId := rfl

theorem length_filter_fst_eq (s : String) (f : Combo → String)
    (g : Combo → List String) :
    ∀ l : List Combo,
      ((l.map (fun c => (s, f c, g c))).filter
        (fun e => decide (e.1 = s))).length = l.length := by
  intro l
  induction l with
  | nil => rfl
  | cons c rest ih => simpa using ih

theorem length_filter_fst_ne (s t : String) (h : ¬ s = t) (f : Combo → String)
    (g : Combo → List String) :
    ∀ l : List Combo,
      ((l.map (fun c => (s, f c, g c))).filter
        (fun e => decide (e.1 = t))).length = 0 := by
  intro l
  induction l with
  | nil => rfl
  | cons c rest ih => simp [h, ih]

theorem map_comboId_filter (sel : List String) :
    ∀ l : List Combo,
      (l.filter (fun c => decide (c.comboId ∈ sel))).map Combo.comboId =
        (l.map Combo.comboId).filter (fun i => decide (i ∈ sel)) := by
  intro l
  induction l with
  | nil => rfl
  | cons c rest ih =>
    by_cases hm : c.comboId ∈ sel
    · simp [List.filter_cons, hm, ih]
    · simp [List.filter_cons, hm, ih]

theorem runTuneScript_ok (env : TuneEnv) (p : TuneParams)
    (combos : List Combo) (datasets : List String) (original : String)
    (entries0 : CacheEntries) (out : List EvalRow × List EvalRow)
    (st' : TuneState)
    (hok : runTuneScript env p combos datasets original entries0 =
      (.ok out, st')) :
    env.lockAvailable = true ∧
    ∃ stB, runTuningBody env p combos datasets original
        { config := original, entries := entries0, evalTrace := []
          matrixCalls := [] } = (.ok out, stB) ∧
      st' = { stB with config := original } ∧ out.2 ≠ [] := by
  simp only [runTuneScript] at hok
  split at hok
  · simp at hok
  · rename_i hlock
    have hlock2 : env.lockAvailable = true := by
      cases h : env.lockAvailable
      · exact absurd h hlock
      · rfl
    rcases hb : runTuningBody env p combos datasets original
        { config := original, entries := entries0, evalTrace := []
          matrixCalls := [] } with ⟨res, stB⟩
    rw [hb] at hok
    cases res with
    | error e => simp at hok
    | ok pair =>
      rcases pair with ⟨screenRows, finalRows⟩
      simp only at hok
      split at hok
      · simp at hok
      · rename_i hne
        simp only [Prod.mk.injEq] at hok
        obtain ⟨h1, h2⟩ := hok
        injection h1 with h1
        refine ⟨hlock2, stB, ?_, h2.symm, ?_⟩
        · rw [h1]
        · rw [← h1]
          simpa [List.isEmpty_iff] using hne

theorem runTuningBody_ok (env : TuneEnv) (p : TuneParams)
    (combos : List Combo) (datasets : List String) (original : String)
    (st0 : TuneState) (out : List EvalRow × List EvalRow) (stB : TuneState)
    (h : runTuningBody env p combos datasets original st0 = (.ok out, stB)) :
    ∃ screenRows finalRows st1,
      out = (screenRows, finalRows) ∧
      runEvalLoop (screenStep env p original
          (decide (0 < p.screenDatasetLimit) &&
            decide ((selectEvenlySpacedDatasets datasets
              p.screenDatasetLimit).length < datasets.length))
          (selectEvenlySpacedDatasets datasets p.screenDatasetLimit) datasets
          (env.sigHash (selectEvenlySpacedDatasets datasets
            p.screenDatasetLimit))
          (env.sigHash datasets)) combos st0 = (.ok screenRows, st1) ∧
      runEvalLoop (finalStep env p original datasets (env.sigHash datasets)
          screenRows)
        (combos.filter (fun c => decide (c.comboId ∈
          selectTopIds p
            (decide (0 < p.screenDatasetLimit) &&
              decide ((selectEvenlySpacedDatasets datasets
                p.screenDatasetLimit).length < datasets.length))
            combos screenRows))) st1 = (.ok finalRows, stB) := by
  simp only [runTuningBody] at h
  rcases h1 : runEvalLoop (screenStep env p original
      (decide (0 < p.screenDatasetLimit) &&
        decide ((selectEvenlySpacedDatasets datasets
          p.screenDatasetLimit).length < datasets.length))
      (selectEvenlySpacedDatasets datasets p.screenDatasetLimit) datasets
      (env.sigHash (selectEvenlySpacedDatasets datasets p.screenDatasetLimit))
      (env.sigHash datasets)) combos st0 with ⟨res1, stA⟩
  rw [h1] at h
  cases res1 with
  | error e => simp at h
  | ok screenRows =>
    simp only at h
    rcases h2 : runEvalLoop (finalStep env p original datasets
        (env.sigHash datasets) screenRows)
      (combos.filter (fun c => decide (c.comboId ∈
        selectTopIds p
          (decide (0 < p.screenDatasetLimit) &&
            decide ((selectEvenlySpacedDatasets datasets
              p.screenDatasetLimit).length < datasets.length))
          combos screenRows))) stA with ⟨res2, stC⟩
    rw [h2] at h
    cases res2 with
    | error e => simp at h
    | ok finalRows =>
      simp only [Prod.mk.injEq] at h
      obtain ⟨ha, hb2⟩ := h
      injection ha with ha
      refine ⟨screenRows, finalRows, stA, ha.symm, rfl, ?_⟩
      rw [h2, hb2]

/-- C3: with screening on (positive screen dataset limit selecting strictly
fewer datasets than the full list) and `0 < K ≤ N`, a completed tuning run
performs exactly `N` screen-stage `evaluate_combo` calls and exactly `K`
final-stage calls, and the combos evaluated at the final stage are exactly
(as a set) the ids of the first `K` rows of the stable descending sort of
the screening rows under the sort key (constraint pass, objective score,
expectancy, win rate, profitable ratio, trade count). -/
theorem screeningFunnel_topK (env : TuneEnv) (p : TuneParams)
    (combos : List Combo) (datasets : List String) (original : String)
    (entries0 : CacheEntries)
    (hid : (combos.map Combo.comboId).Nodup)
    (hfpn : (combos.map comboFingerprint).Nodup)
    (hcons : entriesConsistent combos entries0)
    (hK1 : 0 < p.screenTopK)
    (hKN : p.screenTopK.toNat ≤ combos.length)
    (hlim : 0 < p.screenDatasetLimit)
    (hscr : (selectEvenlySpacedDatasets datasets p.screenDatasetLimit).length
      < datasets.length)
    (out : List EvalRow × List EvalRow) (st' : TuneState)
    (hok : runTuneScript env p combos datasets original entries0 =
      (.ok out, st')) :
    (st'.evalTrace.filter (fun e => decide (e.1 = "screen"))).length =
      combos.length ∧
    (st'.evalTrace.filter (fun e => decide (e.1 = "final"))).length =
      p.screenTopK.toNat ∧
    out.2.length = p.screenTopK.toNat ∧
    (out.2.map EvalRow.comboId).Perm
      (((stableSort screenDescLe out.1).take p.screenTopK.toNat).map
        EvalRow.comboId) := by
  obtain ⟨hlock, stB, hbody, hst', hne⟩ :=
    runTuneScript_ok env p combos datasets original entries0 out st' hok
  obtain ⟨screenRows, finalRows, st1, hout, hscreen, hfinal⟩ :=
    runTuningBody_ok env p combos datasets original _ out stB hbody
  have hdo : (decide (0 < p.screenDatasetLimit) &&
      decide ((selectEvenlySpacedDatasets datasets
        p.screenDatasetLimit).length < datasets.length)) = true := by
    simp [hlim, hscr]
  have hmax : max 1 p.screenTopK.toNat = p.screenTopK.toNat := by omega
  obtain ⟨htrace1, hmap1, hcons1⟩ := runEvalLoop_facts env p original
    (if (decide (0 < p.screenDatasetLimit) &&
        decide ((selectEvenlySpacedDatasets datasets
          p.screenDatasetLimit).length < datasets.length)) then
      selectEvenlySpacedDatasets datasets p.screenDatasetLimit else datasets)
    "screen" p.screenProfileIds
    (if (decide (0 < p.screenDatasetLimit) &&
        decide ((selectEvenlySpacedDatasets datasets
          p.screenDatasetLimit).length < datasets.length)) then
      env.sigHash (selectEvenlySpacedDatasets datasets p.screenDatasetLimit)
      else env.sigHash datasets)
    (scoreScreenRow p) (scoreScreenRow_comboId p) _ (fun c st => rfl)
    combos hfpn combos _ screenRows st1 (fun c h => h) hcons hscreen
  obtain ⟨htrace2, hmap2, hcons2⟩ := runEvalLoop_facts env p original
    datasets "final" p.finalProfileIds (env.sigHash datasets)
    (scoreFinalRow p screenRows) (scoreFinalRow_comboId p screenRows) _
    (fun c st => rfl) combos hfpn _ st1 finalRows stB
    (fun c h => List.mem_of_mem_filter h) hcons1 hfinal
  have hslen : screenRows.length = combos.length := by
    have := congrArg List.length hmap1
    simpa using this
  have hsortlen : (stableSort screenDescLe screenRows).length = combos.length := by
    rw [stableSort_length]
    exact hslen
  have hsortperm : ((stableSort screenDescLe screenRows).map
      EvalRow.comboId).Perm (combos.map Combo.comboId) := by
    rw [← hmap1]
    exact stableSort_map_perm EvalRow.comboId screenDescLe screenRows
  have hsortnodup : ((stableSort screenDescLe screenRows).map
      EvalRow.comboId).Nodup := hsortperm.nodup_iff.mpr hid
  have hselEq : selectTopIds p
      (decide (0 < p.screenDatasetLimit) &&
        decide ((selectEvenlySpacedDatasets datasets
          p.screenDatasetLimit).length < datasets.length)) combos screenRows =
      ((stableSort screenDescLe screenRows).take p.screenTopK.toNat).map
        EvalRow.comboId := by
    simp [selectTopIds, hdo, hmax]
  have hseltake : ((stableSort screenDescLe screenRows).take
      p.screenTopK.toNat).map EvalRow.comboId =
      ((stableSort screenDescLe screenRows).map EvalRow.comboId).take
        p.screenTopK.toNat := by
    rw [List.map_take]
  have hselsub : (((stableSort screenDescLe screenRows).take
      p.screenTopK.toNat).map EvalRow.comboId).Sublist
      ((stableSort screenDescLe screenRows).map EvalRow.comboId) := by
    rw [hseltake]
    exact List.take_sublist _ _
  have hselnodup : (((stableSort screenDescLe screenRows).take
      p.screenTopK.toNat).map EvalRow.comboId).Nodup :=
    hselsub.nodup hsortnodup
  have hsellen : (((stableSort screenDescLe screenRows).take
      p.screenTopK.toNat).map EvalRow.comboId).length = p.screenTopK.toNat := by
    rw [hseltake, List.length_take, List.length_map, hsortlen]
    omega
  have hselmem : ∀ a, a ∈ ((stableSort screenDescLe screenRows).take
      p.screenTopK.toNat).map EvalRow.comboId → a ∈ combos.map Combo.comboId :=
    fun a ha => hsortperm.mem_iff.mp (hselsub.mem ha)
  have hfilterEq : finalRows.map EvalRow.comboId =
      (combos.map Combo.comboId).filter (fun i => decide (i ∈
        ((stableSort screenDescLe screenRows).take p.screenTopK.toNat).map
          EvalRow.comboId)) := by
    rw [hmap2, hselEq, map_comboId_filter]
  have hfilterPerm : (finalRows.map EvalRow.comboId).Perm
      (((stableSort screenDescLe screenRows).take p.screenTopK.toNat).map
        EvalRow.comboId) := by
    rw [hfilterEq]
    rw [List.perm_ext_iff_of_nodup (hid.filter _) hselnodup]
    intro a
    constructor
    · intro ha
      exact of_decide_eq_true (List.mem_filter.mp ha).2
    · intro ha
      exact List.mem_filter.mpr ⟨hselmem a ha, decide_eq_true ha⟩
  have hflen : finalRows.length = p.screenTopK.toNat := by
    have h1 := hfilterPerm.length_eq
    rw [hsellen] at h1
    simpa using h1
  have htraceFull : st'.evalTrace =
      combos.map (fun c => ("screen", c.comboId,
        if (decide (0 < p.screenDatasetLimit) &&
            decide ((selectEvenlySpacedDatasets datasets
              p.screenDatasetLimit).length < datasets.length)) then
          selectEvenlySpacedDatasets datasets p.screenDatasetLimit
        else datasets)) ++
      (combos.filter (fun c => decide (c.comboId ∈ selectTopIds p
        (decide (0 < p.screenDatasetLimit) &&
          decide ((selectEvenlySpacedDatasets datasets
            p.screenDatasetLimit).length < datasets.length))
        combos screenRows))).map (fun c => ("final", c.comboId, datasets)) := by
    rw [hst']
    dsimp only
    rw [htrace2, htrace1]
    simp
  have hflen2 : (combos.filter (fun c => decide (c.comboId ∈ selectTopIds p
      (decide (0 < p.screenDatasetLimit) &&
        decide ((selectEvenlySpacedDatasets datasets
          p.screenDatasetLimit).length < datasets.length))
      combos screenRows))).length = p.screenTopK.toNat := by
    have h1 := congrArg List.length hmap2
    simp only [List.length_map] at h1
    rw [← h1, hflen]
  refine ⟨?_, ?_, ?_, ?_⟩
  · rw [htraceFull, List.filter_append, List.length_append,
      length_filter_fst_eq, length_filter_fst_ne "final" "screen" (by decide)]
    omega
  · rw [htraceFull, List.filter_append, List.length_append,
      length_filter_fst_ne "screen" "final" (by decide),
      length_filter_fst_eq, hflen2]
    omega
  · rw [hout]
    exact hflen
  · rw [hout]
    exact hfilterPerm

/-- Witness for C3: one candidate, datasets ["a","b"], screen dataset limit
1 (screening on), top-K 1: exactly one screen-stage and one final-stage
evaluation. -/
theorem screeningFunnel_topK_witness :
    ∃ out st',
      runTuneScript sampleEnv sampleParamsNoCache [sampleCombo] ["a", "b"]
        "origcfg" [] = (.ok out, st') ∧
      (st'.evalTrace.filter (fun e => decide (e.1 = "screen"))).length = 1 ∧
      (st'.evalTrace.filter (fun e => decide (e.1 = "final"))).length = 1 := by
  obtain ⟨h1, h2, h3, h4⟩ := screeningFunnel_topK sampleEnv sampleParamsNoCache
    [sampleCombo] ["a", "b"] "origcfg" []
    (by simp) (by simp) (by intro e he c hc hf; simp at he)
    (by decide) (by decide) (by decide) (by decide) _ _ rfl
  exact ⟨_, _, rfl, h1, h2⟩

/-- C4 counterexample: with screening off (screen dataset limit 0) and one
candidate, the run still performs a screen-stage evaluation for the combo
(the screen loop of `main` runs unconditionally), contradicting the claim
that no separate screening-stage evaluation is performed. -/
theorem screeningOff_counterexample :
    ∃ out st',
      runTuneScript sampleEnv sampleParamsScreenOff [sampleCombo] ["a", "b"]
        "origcfg" [] = (.ok out, st') ∧
      (st'.evalTrace.filter (fun e => decide (e.1 = "screen"))).length = 1 ∧
      ¬ (st'.evalTrace.filter (fun e => decide (e.1 = "screen"))).length = 0 := by
  refine ⟨_, _, rfl, by decide, by decide⟩

/-- C4 (amended): when screening is off (limit nonpositive, or the screening
subset is not strictly smaller than the full list), every combo still goes
through the screen stage — it is first evaluated once at stage "screen" on
the full dataset list — and then every combo advances to the final stage
and is evaluated again on the full dataset list (2N evaluations in total,
not N). -/
theorem screeningOff_still_screens (env : TuneEnv) (p : TuneParams)
    (combos : List Combo) (datasets : List String) (original : String)
    (entries0 : CacheEntries)
    (hfpn : (combos.map comboFingerprint).Nodup)
    (hcons : entriesConsistent combos entries0)
    (hoff : ¬(0 < p.screenDatasetLimit ∧
      (selectEvenlySpacedDatasets datasets p.screenDatasetLimit).length <
        datasets.length))
    (out : List EvalRow × List EvalRow) (st' : TuneState)
    (hok : runTuneScript env p combos datasets original entries0 =
      (.ok out, st')) :
    st'.evalTrace =
      combos.map (fun c => ("screen", c.comboId, datasets)) ++
      combos.map (fun c => ("final", c.comboId, datasets)) ∧
    out.1.map EvalRow.comboId = combos.map Combo.comboId ∧
    out.2.map EvalRow.comboId = combos.map Combo.comboId := by
  obtain ⟨hlock, stB, hbody, hst', hne⟩ :=
    runTuneScript_ok env p combos datasets original entries0 out st' hok
  obtain ⟨screenRows, finalRows, st1, hout, hscreen, hfinal⟩ :=
    runTuningBody_ok env p combos datasets original _ out stB hbody
  have hdo : (decide (0 < p.screenDatasetLimit) &&
      decide ((selectEvenlySpacedDatasets datasets
        p.screenDatasetLimit).length < datasets.length)) = false := by
    have h1 : ¬((decide (0 < p.screenDatasetLimit) &&
        decide ((selectEvenlySpacedDatasets datasets
          p.screenDatasetLimit).length < datasets.length)) = true) := by
      rw [Bool.and_eq_true, decide_eq_true_iff, decide_eq_true_iff]
      exact hoff
    simpa using h1
  obtain ⟨htrace1, hmap1, hcons1⟩ := runEvalLoop_facts env p original
    (if (decide (0 < p.screenDatasetLimit) &&
        decide ((selectEvenlySpacedDatasets datasets
          p.screenDatasetLimit).length < datasets.length)) then
      selectEvenlySpacedDatasets datasets p.screenDatasetLimit else datasets)
    "screen" p.screenProfileIds
    (if (decide (0 < p.screenDatasetLimit) &&
        decide ((selectEvenlySpacedDatasets datasets
          p.screenDatasetLimit).length < datasets.length)) then
      env.sigHash (selectEvenlySpacedDatasets datasets p.screenDatasetLimit)
      else env.sigHash datasets)
    (scoreScreenRow p) (scoreScreenRow_comboId p) _ (fun c st => rfl)
    combos hfpn combos _ screenRows st1 (fun c h => h) hcons hscreen
  obtain ⟨htrace2, hmap2, hcons2⟩ := runEvalLoop_facts env p original
    datasets "final" p.finalProfileIds (env.sigHash datasets)
    (scoreFinalRow p screenRows) (scoreFinalRow_comboId p screenRows) _
    (fun c st => rfl) combos hfpn _ st1 finalRows stB
    (fun c h => List.mem_of_mem_filter h) hcons1 hfinal
  have hsel : selectTopIds p
      (decide (0 < p.screenDatasetLimit) &&
        decide ((selectEvenlySpacedDatasets datasets
          p.screenDatasetLimit).length < datasets.length)) combos screenRows =
      combos.map Combo.comboId := by
    simp [selectTopIds, hdo]
  have hfiltSelf : combos.filter (fun c => decide (c.comboId ∈ selectTopIds p
      (decide (0 < p.screenDatasetLimit) &&
        decide ((selectEvenlySpacedDatasets datasets
          p.screenDatasetLimit).length < datasets.length))
      combos screenRows)) = combos := by
    rw [hsel]
    apply List.filter_eq_self.mpr
    intro c hc
    exact decide_eq_true (List.mem_map_of_mem Combo.comboId hc)
  refine ⟨?_, ?_, ?_⟩
  · rw [hst']
    dsimp only
    rw [htrace2, htrace1, hfiltSelf]
    simp [hdo]
  · rw [hout]
    exact hmap1
  · rw [hout]
    rw [hmap2, hfiltSelf]

/-- Witness for the amended C4: one candidate, screening off via limit 0:
the trace is one screen-stage evaluation on the full dataset list followed
by one final-stage evaluation on the full dataset list. -/
theorem screeningOff_still_screens_witness :
    ∃ out st',
      runTuneScript sampleEnv sampleParamsScreenOff [sampleCombo] ["a", "b"]
        "origcfg" [] = (.ok out, st') ∧
      st'.evalTrace =
        [("screen", "c1", ["a", "b"]), ("final", "c1", ["a", "b"])] := by
  obtain ⟨h1, h2, h3⟩ := screeningOff_still_screens sampleEnv
    sampleParamsScreenOff [sampleCombo] ["a", "b"] "origcfg" []
    (by simp) (by intro e he c hc hf; simp at he) (by decide) _ _ rfl
  exact ⟨_, _, rfl, h1⟩

theorem insertSorted_pairwise (le : α → α → Bool)
    (htot : ∀ a b, le a b = false → le b a = true)
    (htrans : ∀ a b c, le a b = true → le b c = true → le a c = true)
    (x : α) : ∀ l : List α,
      l.Pairwise (fun a b => le a b = true) →
      (insertSorted le x l).Pairwise (fun a b => le a b = true) := by
  intro l
  induction l with
  | nil =>
    intro _
    simp [insertSorted]
  | cons y ys ih =>
    intro h
    rw [List.pairwise_cons] at h
    obtain ⟨hy, hys⟩ := h
    simp only [insertSorted]
    split
    · rename_i hxy
      rw [List.pairwise_cons]
      refine ⟨?_, List.pairwise_cons.mpr ⟨hy, hys⟩⟩
      intro b hb
      rcases List.mem_cons.mp hb with hb1 | hb2
      · rw [hb1]
        exact hxy
      · exact htrans x y b hxy (hy b hb2)
    · rename_i hxy
      rw [List.pairwise_cons]
      refine ⟨?_, ih hys⟩
      intro b hb
      have hb2 := (insertSorted_perm le x ys).mem_iff.mp hb
      rcases List.mem_cons.mp hb2 with hb3 | hb4
      · rw [hb3]
        exact htot x y (by simpa using hxy)
      · exact hy b hb4

theorem stableSort_pairwise (le : α → α → Bool)
    (htot : ∀ a b, le a b = false → le b a = true)
    (htrans : ∀ a b c, le a b = true → le b c = true → le a c = true) :
    ∀ l : List α,
      (stableSort le l).Pairwise (fun a b => le a b = true) := by
  intro l
  induction l with
  | nil => simp [stableSort]
  | cons x xs ih =>
    simp only [stableSort]
    exact insertSorted_pairwise le htot htrans x _ ih

theorem stableSort_natLeB_sorted (l : List ℕ) :
    (stableSort natLeB l).Pairwise (· ≤ ·) := by
  have h := stableSort_pairwise natLeB
    (by intro a b hab; simp [natLeB] at *; omega)
    (by intro a b c hab hbc; simp [natLeB] at *; omega) l
  exact h.imp (by intro a b hab; simpa [natLeB] using hab)

theorem sampleBaseIndices_lt (n limit : ℕ) (h2 : 2 ≤ limit) (hn : limit < n) :
    ∀ i ∈ sampleBaseIndices n limit, i < n := by
  intro i hi
  unfold sampleBaseIndices at hi
  have hi2 : i ∈ ((List.range limit).map
      (fun (j : ℕ) => (roundHalfEven ((j : ℚ) * sampleStep n limit)).toNat)).dedup :=
    (stableSort_perm natLeB _).mem_iff.mp hi
  have hi3 := List.mem_dedup.mp hi2
  have hex : ∃ a : ℕ, a ∈ List.range limit ∧
      (roundHalfEven ((a : ℚ) * sampleStep n limit)).toNat = i :=
    List.mem_map.mp hi3
  rcases hex with ⟨j, hj, hji⟩
  have hjlt : j < limit := List.mem_range.mp hj
  have hden : (0 : ℚ) < (limit : ℚ) - 1 := by
    have : (2 : ℚ) ≤ (limit : ℚ) := by exact_mod_cast h2
    linarith
  have hnum : (0 : ℚ) ≤ (n : ℚ) - 1 := by
    have : (3 : ℚ) ≤ (n : ℚ) := by
      have : 3 ≤ n := by omega
      exact_mod_cast this
    linarith
  have hstep0 : 0 ≤ sampleStep n limit := by
    unfold sampleStep
    positivity
  have hql : (j : ℚ) * sampleStep n limit ≤ (n : ℚ) - 1 := by
    have hj1 : (j : ℚ) ≤ (limit : ℚ) - 1 := by
      have : (j : ℚ) + 1 ≤ (limit : ℚ) := by exact_mod_cast hjlt
      linarith
    have h1 : (j : ℚ) * sampleStep n limit ≤
        ((limit : ℚ) - 1) * sampleStep n limit :=
      mul_le_mul_of_nonneg_right hj1 hstep0
    have h2 : ((limit : ℚ) - 1) * sampleStep n limit = (n : ℚ) - 1 := by
      unfold sampleStep
      field_simp
    linarith
  have hq0 : (0 : ℚ) ≤ (j : ℚ) * sampleStep n limit := by positivity
  have hub : roundHalfEven ((j : ℚ) * sampleStep n limit) ≤ (n : ℤ) - 1 := by
    have hceil := roundHalfEven_le_ceil ((j : ℚ) * sampleStep n limit)
    have : ⌈(j : ℚ) * sampleStep n limit⌉ ≤ (n : ℤ) - 1 := by
      rw [Int.ceil_le]
      push_cast
      linarith
    omega
  have hlb : 0 ≤ roundHalfEven ((j : ℚ) * sampleStep n limit) :=
    roundHalfEven_nonneg hq0
  rw [← hji]
  omega

theorem length_filter_not_mem (base : List ℕ) (hnd : base.Nodup) (n : ℕ)
    (hsub : ∀ i ∈ base, i < n) :
    ((List.range n).filter (fun i => decide (i ∉ base))).length =
      n - base.length := by
  have hperm : ((List.range n).filter (fun i => decide (i ∈ base))).Perm base := by
    rw [List.perm_ext_iff_of_nodup ((List.nodup_range n).filter _) hnd]
    intro a
    constructor
    · intro ha
      exact of_decide_eq_true (List.mem_filter.mp ha).2
    · intro ha
      exact List.mem_filter.mpr
        ⟨List.mem_range.mpr (hsub a ha), decide_eq_true ha⟩
  have hsplit : ((List.range n).filter (fun i => decide (i ∈ base))).length +
      ((List.range n).filter (fun i => decide (i ∉ base))).length =
      (List.range n).length := by
    induction (List.range n) with
    | nil => rfl
    | cons x xs ih =>
      by_cases hx : x ∈ base
      · simp [List.filter_cons, hx, ← ih]
        omega
      · simp only [List.filter_cons, hx, decide_not]
        simp [hx, ← ih]
        omega
  have h1 := hperm.length_eq
  rw [List.length_range] at hsplit
  omega

theorem sampleBaseIndices_nodup (n limit : ℕ) :
    (sampleBaseIndices n limit).Nodup := by
  unfold sampleBaseIndices
  exact (stableSort_perm natLeB _).nodup_iff.mpr (List.nodup_dedup _)

theorem sampleBaseIndices_length_le (n limit : ℕ) :
    (sampleBaseIndices n limit).length ≤ limit := by
  unfold sampleBaseIndices
  rw [stableSort_length]
  have h1 := (List.dedup_sublist ((List.range limit).map
    (fun (i : ℕ) => (roundHalfEven ((i : ℚ) * sampleStep n limit)).toNat))).length_le
  simpa using h1

theorem sampleIndices_spec (n limit : ℕ) (h2 : 2 ≤ limit) (hn : limit < n) :
    (sampleIndices n limit).length = limit ∧ (sampleIndices n limit).Nodup ∧
    (sampleIndices n limit).Pairwise (· ≤ ·) ∧
    ∀ i ∈ sampleIndices n limit, i < n := by
  have hbase_lt := sampleBaseIndices_lt n limit h2 hn
  have hbase_nd := sampleBaseIndices_nodup n limit
  have hbase_le := sampleBaseIndices_length_le n limit
  simp only [sampleIndices]
  split
  · rename_i hlt
    have hunused : ((List.range n).filter
        (fun i => decide (i ∉ sampleBaseIndices n limit))).length =
        n - (sampleBaseIndices n limit).length :=
      length_filter_not_mem _ hbase_nd n hbase_lt
    have hcomb_nd : (sampleBaseIndices n limit ++
        ((List.range n).filter
          (fun i => decide (i ∉ sampleBaseIndices n limit))).take
          (limit - (sampleBaseIndices n limit).length)).Nodup := by
      rw [List.nodup_append]
      refine ⟨hbase_nd, ((List.take_sublist _ _).nodup
        ((List.nodup_range n).filter _)), ?_⟩
      intro a ha hb
      have hb2 := (List.take_sublist _ _).mem hb
      have := of_decide_eq_true (List.mem_filter.mp hb2).2
      exact this ha
    have hcomb_len : (sampleBaseIndices n limit ++
        ((List.range n).filter
          (fun i => decide (i ∉ sampleBaseIndices n limit))).take
          (limit - (sampleBaseIndices n limit).length)).length = limit := by
      rw [List.length_append, List.length_take, hunused]
      omega
    have hcomb_lt : ∀ i ∈ sampleBaseIndices n limit ++
        ((List.range n).filter
          (fun i => decide (i ∉ sampleBaseIndices n limit))).take
          (limit - (sampleBaseIndices n limit).length), i < n := by
      intro i hi
      rcases List.mem_append.mp hi with h | h
      · exact hbase_lt i h
      · have h3 := (List.take_sublist _ _).mem h
        exact List.mem_range.mp (List.mem_filter.mp h3).1
    have htake : (sampleBaseIndices n limit ++
        ((List.range n).filter
          (fun i => decide (i ∉ sampleBaseIndices n limit))).take
          (limit - (sampleBaseIndices n limit).length)).take limit =
        sampleBaseIndices n limit ++
        ((List.range n).filter
          (fun i => decide (i ∉ sampleBaseIndices n limit))).take
          (limit - (sampleBaseIndices n limit).length) :=
      List.take_of_length_le (le_of_eq hcomb_len)
    refine ⟨?_, ?_, stableSort_natLeB_sorted _, ?_⟩
    · rw [stableSort_length, htake, hcomb_len]
    · rw [htake]
      exact (stableSort_perm natLeB _).nodup_iff.mpr hcomb_nd
    · intro i hi
      rw [htake] at hi
      exact hcomb_lt i ((stableSort_perm natLeB _).mem_iff.mp hi)
  · rename_i hge
    refine ⟨by omega, hbase_nd, stableSort_natLeB_sorted _, hbase_lt⟩

theorem filterMap_get?_spec (l : List α) :
    ∀ (is : List ℕ), (∀ i ∈ is, i < l.length) →
      (is.filterMap (fun i => l.get? i)).length = is.length ∧
      (List.Pairwise (· < ·) is →
        (is.filterMap (fun i => l.get? i)).Sublist l) := by
  have hmain : ∀ (is : List ℕ) (hb : ∀ i ∈ is, i < l.length),
      is.filterMap (fun i => l.get? i) =
      (is.pmap (fun i hi => (⟨i, hi⟩ : Fin l.length)) hb).map
        (fun j => l.get j) := by
    intro is
    induction is with
    | nil => intro hb; rfl
    | cons i rest ih =>
      intro hb
      have hi : i < l.length := hb i (List.mem_cons_self i rest)
      rw [List.filterMap_cons, List.get?_eq_get hi]
      simp only [List.pmap, List.map_cons]
      rw [ih (fun j hj => hb j (List.mem_cons_of_mem i hj))]
  intro is hb
  constructor
  · rw [hmain is hb]
    simp [List.length_pmap]
  · intro hpair
    rw [hmain is hb]
    have hpair2 : List.Pairwise (· < ·)
        (is.pmap (fun i hi => (⟨i, hi⟩ : Fin l.length)) hb) := by
      rw [List.pairwise_pmap hb]
      exact hpair.imp (by intro a b hab h1 h2; exact hab)
    have hsub := List.map_getElem_sublist hpair2
    have : ((is.pmap (fun i hi => (⟨i, hi⟩ : Fin l.length)) hb).map
        (fun j => l.get j)) = ((is.pmap (fun i hi => (⟨i, hi⟩ : Fin l.length))
          hb).map (fun j => l[j])) := rfl
    rw [this]
    exact hsub

/-- C6: the dataset sampler returns the input list unchanged when the limit
is nonpositive or at least the list length; otherwise it returns exactly
`limit` elements of the input in ascending input-index order (a sublist of
the input), chosen by the rounding/deduplication/backfill procedure that
defines it.  Being a pure function, it returns the same result on every
call. -/
theorem selectEvenlySpacedDatasets_spec (datasets : List α) (limit : ℤ) :
    ((limit ≤ 0 ∨ (datasets.length : ℤ) ≤ limit) →
      selectEvenlySpacedDatasets datasets limit = datasets) ∧
    (0 < limit → limit < (datasets.length : ℤ) →
      (selectEvenlySpacedDatasets datasets limit).length = limit.toNat ∧
      (selectEvenlySpacedDatasets datasets limit).Sublist datasets) := by
  constructor
  · intro h
    simp only [selectEvenlySpacedDatasets]
    rw [if_pos h]
  · intro h1 h2
    have hno : ¬(limit ≤ 0 ∨ (datasets.length : ℤ) ≤ limit) := by
      push_neg
      exact ⟨h1, h2⟩
    simp only [selectEvenlySpacedDatasets]
    rw [if_neg hno]
    by_cases hone : limit = 1
    · rw [if_pos hone]
      have hvalid : datasets.length / 2 < datasets.length := by omega
      rw [List.get?_eq_get hvalid]
      constructor
      · simp [hone]
      · simp [List.singleton_sublist]
    · rw [if_neg hone]
      have h2n : 2 ≤ limit.toNat := by omega
      have hnn : limit.toNat < datasets.length := by omega
      obtain ⟨hlen, hnd, hsort, hlt⟩ :=
        sampleIndices_spec datasets.length limit.toNat h2n hnn
      obtain ⟨hfl, hfs⟩ := filterMap_get?_spec datasets
        (sampleIndices datasets.length limit.toNat) hlt
      refine ⟨by rw [hfl, hlen], ?_⟩
      apply hfs
      have hcomb := hsort.and hnd
      exact hcomb.imp (fun hab => lt_of_le_of_ne hab.1 hab.2)

/-- Witness for C6: both clauses applied at concrete inputs: a limit at
least the length returns the list unchanged, and a limit of 2 over five
datasets returns exactly two of them in input order. -/
theorem selectEvenlySpacedDatasets_spec_witness :
    selectEvenlySpacedDatasets [10, 20, 30] (5 : ℤ) = [10, 20, 30] ∧
    ((selectEvenlySpacedDatasets [0, 1, 2, 3, 4] (2 : ℤ)).length = 2 ∧
      (selectEvenlySpacedDatasets [0, 1, 2, 3, 4] (2 : ℤ)).Sublist
        [0, 1, 2, 3, 4]) := by
  constructor
  · exact (selectEvenlySpacedDatasets_spec [10, 20, 30] 5).1
      (Or.inr (by decide))
  · exact (selectEvenlySpacedDatasets_spec [0, 1, 2, 3, 4] 2).2
      (by decide) (by decide)

theorem dedupeCombosAux_spec (l : List Combo) : ∀ seen,
    ((dedupeCombosAux seen l).map comboFingerprint).Nodup ∧
    (∀ c ∈ dedupeCombosAux seen l, comboFingerprint c ∉ seen) ∧
    (dedupeCombosAux seen l).Sublist l ∧
    (∀ c ∈ l, comboFingerprint c ∈ seen ∨
      ∃ c2, c2 ∈ dedupeCombosAux seen l ∧
        comboFingerprint c2 = comboFingerprint c) := by
  induction l with
  | nil =>
    intro seen
    simp [dedupeCombosAux]
  | cons c rest ih =>
    intro seen
    by_cases hc : comboFingerprint c ∈ seen
    · rw [show dedupeCombosAux seen (c :: rest) = dedupeCombosAux seen rest
        from by simp [dedupeCombosAux, hc]]
      obtain ⟨h1, h2, h3, h4⟩ := ih seen
      refine ⟨h1, h2, List.Sublist.cons c h3, ?_⟩
      intro x hx
      rcases List.mem_cons.mp hx with rfl | hx
      · exact Or.inl hc
      · exact h4 x hx
    · rw [show dedupeCombosAux seen (c :: rest) =
          c :: dedupeCombosAux (comboFingerprint c :: seen) rest
        from by simp [dedupeCombosAux, hc]]
      obtain ⟨h1, h2, h3, h4⟩ := ih (comboFingerprint c :: seen)
      refine ⟨?_, ?_, List.Sublist.cons₂ c h3, ?_⟩
      · simp only [List.map_cons, List.nodup_cons]
        refine ⟨?_, h1⟩
        intro hmem
        obtain ⟨c2, hc2, he⟩ := List.mem_map.mp hmem
        exact h2 c2 hc2 (by rw [he]; exact List.mem_cons_self _ _)
      · intro x hx
        rcases List.mem_cons.mp hx with rfl | hx
        · exact hc
        · intro hmem
          exact h2 x hx (List.mem_cons_of_mem _ hmem)
      · intro x hx
        rcases List.mem_cons.mp hx with rfl | hx
        · exact Or.inr ⟨x, List.mem_cons_self _ _, rfl⟩
        · rcases h4 x hx with hin | ⟨c2, hc2m, he⟩
          · rcases List.mem_cons.mp hin with heq | hin2
            · exact Or.inr ⟨c, List.mem_cons_self _ _, heq.symm⟩
            · exact Or.inl hin2
          · exact Or.inr ⟨c2, List.mem_cons_of_mem _ hc2m, he⟩

theorem dedupeCombos_nodup (combos : List Combo) :
    ((dedupeCombos combos).map comboFingerprint).Nodup :=
  (dedupeCombosAux_spec combos []).1

theorem dedupeCombos_ne_nil {combos : List Combo} (h : combos ≠ []) :
    dedupeCombos combos ≠ [] := by
  cases combos with
  | nil => exact absurd rfl h
  | cons c rest =>
    show dedupeCombosAux [] (c :: rest) ≠ []
    simp [dedupeCombosAux]

theorem diverseGenerated_ne_nil (mode : ScenarioMode) :
    diverseGenerated mode ≠ [] := by
  intro hcon
  have hlen := congrArg List.length hcon
  by_cases h : mode = ScenarioMode.diverse_wide <;>
    simp [diverseGenerated, h, List.product] at hlen

theorem qualityGenerated_ne_nil (maxScenarios : ℤ) :
    qualityGenerated maxScenarios ≠ [] := by
  intro hcon
  have hlen := congrArg List.length hcon
  simp [qualityGenerated, qualityProfiles] at hlen

theorem buildComboInput_ne_nil (mode : ScenarioMode) (il : Bool)
    (maxS : ℤ) : buildComboInput mode il maxS ≠ [] := by
  by_cases hm : mode = ScenarioMode.legacy_only
  · simp [buildComboInput, hm]
  · cases il with
    | true => simp [buildComboInput, hm]
    | false =>
      cases mode with
      | legacy_only => exact absurd rfl hm
      | diverse_light =>
        simpa [buildComboInput] using
          diverseGenerated_ne_nil ScenarioMode.diverse_light
      | diverse_wide =>
        simpa [buildComboInput] using
          diverseGenerated_ne_nil ScenarioMode.diverse_wide
      | quality_focus =>
        simpa [buildComboInput] using qualityGenerated_ne_nil maxS

theorem buildComboSpecs_eq (mode : ScenarioMode) (il : Bool) (maxS : ℤ) :
    buildComboSpecs mode il maxS =
      (if (if 0 < maxS ∧
              maxS.toNat < (dedupeCombos (buildComboInput mode il maxS)).length
            then (dedupeCombos (buildComboInput mode il maxS)).take maxS.toNat
            else dedupeCombos (buildComboInput mode il maxS)).isEmpty
        then Except.error
          "No tuning combos selected. Check --scenario-mode/--max-scenarios."
        else Except.ok
          (if 0 < maxS ∧
              maxS.toNat < (dedupeCombos (buildComboInput mode il maxS)).length
            then (dedupeCombos (buildComboInput mode il maxS)).take maxS.toNat
            else dedupeCombos (buildComboInput mode il maxS))) := rfl

/-- C7: for every scenario mode, legacy-inclusion flag and max-candidate
count, `build_combo_specs` (a pure function of these inputs, hence returning
the same ordered list on every call) succeeds with a nonempty candidate list
in which no two candidates share a content fingerprint, truncated to the
requested maximum whenever that maximum is positive; and deduplication keeps
candidates in first-occurrence order (the output is an order-preserving
sublist of the input) while retaining a representative of every input
fingerprint.  The empty-result error branch of the source is present in the
embedding but unreachable: no mode/flag/limit combination yields an empty
set. -/
theorem buildComboSpecs_spec :
    (∀ (mode : ScenarioMode) (il : Bool) (maxS : ℤ),
      ∃ l, buildComboSpecs mode il maxS = .ok l ∧ l ≠ [] ∧
        (l.map comboFingerprint).Nodup ∧
        (maxS ≤ 0 ∨ l.length ≤ maxS.toNat)) ∧
    (∀ combos : List Combo, (dedupeCombos combos).Sublist combos ∧
      ∀ c ∈ combos, ∃ c2, c2 ∈ dedupeCombos combos ∧
        comboFingerprint c2 = comboFingerprint c) := by
  constructor
  · intro mode il maxS
    have hne : dedupeCombos (buildComboInput mode il maxS) ≠ [] :=
      dedupeCombos_ne_nil (buildComboInput_ne_nil mode il maxS)
    have hnd : ((dedupeCombos (buildComboInput mode il maxS)).map
        comboFingerprint).Nodup := dedupeCombos_nodup _
    rw [buildComboSpecs_eq mode il maxS]
    by_cases hcut : 0 < maxS ∧
        maxS.toNat < (dedupeCombos (buildComboInput mode il maxS)).length
    · rw [if_pos hcut]
      have htne : (dedupeCombos (buildComboInput mode il maxS)).take
          maxS.toNat ≠ [] := by
        intro h
        rcases List.take_eq_nil_iff.mp h with h0 | hl
        · omega
        · exact hne hl
      have hemp : ((dedupeCombos (buildComboInput mode il maxS)).take
          maxS.toNat).isEmpty = false := by
        cases hck : (dedupeCombos (buildComboInput mode il maxS)).take
            maxS.toNat with
        | nil => exact absurd hck htne
        | cons a t => rfl
      rw [hemp]
      refine ⟨_, rfl, htne, ?_, Or.inr ?_⟩
      · rw [List.map_take]
        exact List.Nodup.sublist (List.take_sublist _ _) hnd
      · rw [List.length_take]
        omega
    · rw [if_neg hcut]
      have hemp : (dedupeCombos (buildComboInput mode il maxS)).isEmpty
          = false := by
        cases hck : dedupeCombos (buildComboInput mode il maxS) with
        | nil => exact absurd hck hne
        | cons a t => rfl
      rw [hemp]
      refine ⟨_, rfl, hne, hnd, ?_⟩
      by_cases h0 : 0 < maxS
      · rcases not_and_or.mp hcut with h | h
        · exact absurd h0 h
        · right; omega
      · left; omega
  · intro combos
    refine ⟨(dedupeCombosAux_spec combos []).2.2.1, ?_⟩
    intro c hc
    rcases (dedupeCombosAux_spec combos []).2.2.2 c hc with hin | hex
    · exact absurd hin (List.not_mem_nil _)
    · exact hex

/-- Witness for C7: the coverage clause applied at the singleton legacy
list, with the membership hypothesis discharged concretely. -/
theorem buildComboSpecs_spec_witness :
    ∃ c2, c2 ∈ dedupeCombos [legacyBaseline] ∧
      comboFingerprint c2 = comboFingerprint legacyBaseline :=
  (buildComboSpecs_spec.2 [legacyBaseline]).2 legacyBaseline
    (List.mem_singleton.mpr rfl)

@[simp] theorem appendRow_status (st : LoopState) (r : IterRow) :
    (appendRow st r).status = st.status := rfl

@[simp] theorem appendRow_reason (st : LoopState) (r : IterRow) :
    (appendRow st r).reason = st.reason := rfl

@[simp] theorem appendRow_rows (st : LoopState) (r : IterRow) :
    (appendRow st r).rows = st.rows ++ [r] := rfl

@[simp] theorem bestUpdate_status (p : LoopParams) (snap : Snapshot)
    (cid : String) (st : LoopState) :
    (bestUpdate p snap cid st).status = st.status := by
  unfold bestUpdate
  split <;> rfl

@[simp] theorem bestUpdate_reason (p : LoopParams) (snap : Snapshot)
    (cid : String) (st : LoopState) :
    (bestUpdate p snap cid st).reason = st.reason := by
  unfold bestUpdate
  split <;> rfl

@[simp] theorem bestUpdate_rows (p : LoopParams) (snap : Snapshot)
    (cid : String) (st : LoopState) :
    (bestUpdate p snap cid st).rows = st.rows := by
  unfold bestUpdate
  split <;> rfl

@[simp] theorem markApplied_status (cid : String) (c : Combo)
    (st : LoopState) : (markApplied cid c st).status = st.status := rfl

@[simp] theorem markApplied_reason (cid : String) (c : Combo)
    (st : LoopState) : (markApplied cid c st).reason = st.reason := rfl

@[simp] theorem markApplied_rows (cid : String) (c : Combo)
    (st : LoopState) : (markApplied cid c st).rows = st.rows := rfl

theorem runIteration_cases (p : LoopParams) (e : IterEffects) (i : ℕ)
    (st st1 : LoopState) (b : Bool)
    (h : runIteration p e i st = .ok (st1, b)) :
    (b = true → st1.status = st.status ∧ st1.reason = st.reason ∧
      st1.rows ≠ []) ∧
    (b = false → (st1.status = "paused_runtime_limit" ∨
        st1.status = "success_gate_pass" ∨
        st1.status = "paused_no_improvement") ∧ st1.reason ≠ "") := by
  simp only [runIteration] at h
  repeat' split at h
  all_goals
    first
      | exact Except.noConfusion h
      | (injection h with h1
         injection h1 with h2 h3
         subst h2
         subst h3
         refine ⟨fun hb => ?_, fun hb => ?_⟩ <;>
           first
             | exact Bool.noConfusion hb
             | exact ⟨by simp, by simp⟩)

theorem runLoopIters_facts (p : LoopParams) (orc : ℕ → IterEffects) :
    ∀ (k i : ℕ) (st st' : LoopState),
      runLoopIters p orc i k st = .ok st' →
      (st'.status = st.status ∧ st'.reason = st.reason ∧
        ((k = 0 ∧ st' = st) ∨ st'.rows ≠ [])) ∨
      ((st'.status = "paused_runtime_limit" ∨
        st'.status = "success_gate_pass" ∨
        st'.status = "paused_no_improvement") ∧ st'.reason ≠ "") := by
  intro k
  induction k with
  | zero =>
    intro i st st' h
    simp only [runLoopIters] at h
    injection h with h1
    subst h1
    exact Or.inl ⟨rfl, rfl, Or.inl ⟨rfl, rfl⟩⟩
  | succ k ih =>
    intro i st st' h
    simp only [runLoopIters] at h
    rcases hit : runIteration p (orc i) i st with err | ⟨st1, cont⟩ <;>
      rw [hit] at h
    · exact Except.noConfusion h
    · have hcase := runIteration_cases p (orc i) i st st1 cont hit
      cases cont with
      | false =>
        simp at h
        subst h
        exact Or.inr (hcase.2 rfl)
      | true =>
        simp at h
        obtain ⟨hs0, hr0, hrne⟩ := hcase.1 rfl
        rcases ih (i + 1) st1 st' h with ⟨hs, hr, hrows⟩ | hright
        · left
          refine ⟨hs.trans hs0, hr.trans hr0, Or.inr ?_⟩
          rcases hrows with ⟨hk0, hst⟩ | hne
          · rw [hst]
            exact hrne
          · exact hne
        · exact Or.inr hright

/-- Counterexample to C8 as stated: with `max_iterations = 0` the loop
terminates normally (exit code 0) with final status `paused_no_data`,
which is outside the claimed four-status set. -/
theorem loopStatus_counterexample :
    ∃ out, runAutoImprovementLoop sampleLoopParamsZero sampleIterEffects
        = .ok out ∧
      out.summaryStatus ∉ ["success_gate_pass", "paused_no_improvement",
        "paused_runtime_limit", "paused_max_iterations"] ∧
      out.exitCode = 0 :=
  ⟨_, rfl, by decide, rfl⟩

/-- C8 (amended): every run of the auto-improvement loop that terminates
without raising ends with a final status in the five-status set
{success_gate_pass, paused_no_improvement, paused_runtime_limit,
paused_max_iterations, paused_no_data}, where `paused_no_data` occurs
exactly when `max_iterations ≤ 0`; the machine-readable summary carries a
nonempty reason, and the exit code is 0. -/
theorem loopTerminalStatus (p : LoopParams) (orc : ℕ → IterEffects)
    (out : LoopOutcome)
    (h : runAutoImprovementLoop p orc = .ok out) :
    out.summaryStatus ∈ ["success_gate_pass", "paused_no_improvement",
      "paused_runtime_limit", "paused_max_iterations", "paused_no_data"] ∧
    (out.summaryStatus = "paused_no_data" ↔ p.maxIterations ≤ 0) ∧
    out.summaryReason ≠ "" ∧ out.exitCode = 0 := by
  simp only [runAutoImprovementLoop] at h
  rcases hrun : runLoopIters p orc 1 p.maxIterations.toNat loopInitState
    with err | st <;> rw [hrun] at h
  · exact Except.noConfusion h
  · have hfacts := runLoopIters_facts p orc p.maxIterations.toNat 1
      loopInitState st hrun
    injection h with h1
    subst h1
    by_cases hs : st.status = "running"
    · by_cases hcond : 0 < p.maxIterations ∧ st.rows ≠ []
      · obtain ⟨hpos, hrows⟩ := hcond
        refine ⟨?_, ?_, ?_, rfl⟩
        · simp [hs, hpos, hrows]
        · simp [hs, hpos, hrows]
        · simp [hs, hpos, hrows]
      · have hle : p.maxIterations ≤ 0 := by
          by_contra hpos
          push_neg at hpos
          have hk : p.maxIterations.toNat ≠ 0 := by omega
          rcases hfacts with ⟨hst, hrr, hrows⟩ | ⟨hdisj, _⟩
          · rcases hrows with ⟨hk0, _⟩ | hne
            · exact hk hk0
            · exact hcond ⟨hpos, hne⟩
          · rcases hdisj with h' | h' | h' <;> rw [hs] at h' <;>
              exact absurd h' (by decide)
        refine ⟨?_, ?_, ?_, rfl⟩
        · simp [hs, hcond]
        · simp [hs, hcond, hle]
        · simp [hs, hcond]
    · rcases hfacts with ⟨hst, _, _⟩ | ⟨hdisj, hre⟩
      · exact absurd hst hs
      · have hk : p.maxIterations.toNat ≠ 0 := by
          intro h0
          rw [h0] at hrun
          simp only [runLoopIters] at hrun
          injection hrun with h2
          apply hs
          rw [← h2]
          rfl
        refine ⟨?_, ?_, ?_, rfl⟩
        · rcases hdisj with h' | h' | h' <;> simp [hs, h']
        · constructor
          · intro hpd
            rcases hdisj with h' | h' | h' <;> simp [hs, h'] at hpd
          · intro hle
            exfalso
            omega
        · simp [hs]
          exact hre

/-- Witness for C8: the amended theorem applied to the concrete
`max_iterations = 0` run, whose status is `paused_no_data`. -/
theorem loopTerminalStatus_witness :
    ∃ out, runAutoImprovementLoop sampleLoopParamsZero sampleIterEffects
        = .ok out ∧
      (out.summaryStatus ∈ ["success_gate_pass", "paused_no_improvement",
        "paused_runtime_limit", "paused_max_iterations", "paused_no_data"] ∧
      (out.summaryStatus = "paused_no_data" ↔
        sampleLoopParamsZero.maxIterations ≤ 0) ∧
      out.summaryReason ≠ "" ∧ out.exitCode = 0) :=
  ⟨_, rfl, loopTerminalStatus sampleLoopParamsZero sampleIterEffects _ rfl⟩

theorem getProc_setProc_self (s : LockGState) (p : Bool)
    (ps : LockProcState) : getProc (setProc s p ps) p = ps := by
  cases p <;> simp [getProc, setProc]

theorem getProc_setProc_ne (s : LockGState) (p : Bool) (ps : LockProcState)
    (q : Bool) (h : q ≠ p) : getProc (setProc s p ps) q = getProc s q := by
  cases p <;> cases q <;>
    first
      | exact absurd rfl h
      | simp [getProc, setProc]

theorem setProc_file (s : LockGState) (p : Bool) (ps : LockProcState) :
    (setProc s p ps).file = s.file := by
  cases p <;> simp [setProc]

theorem getProc_withFile (s : LockGState) (v : Option LockFileState)
    (q : Bool) : getProc { s with file := v } q = getProc s q := by
  cases q <;> rfl

theorem getProc_withNow (s : LockGState) (n : ℚ) (q : Bool) :
    getProc { s with now := n } q = getProc s q := by
  cases q <;> rfl

theorem lockStep_preserves_inv (cfg : LockCfg) (a : LockAct)
    (s t : LockGState) (hna : ∀ p : Bool, a ≠ .unlinkStale p)
    (hinv : lockOwnerInv cfg s) (hstep : LockStep cfg a s t) :
    lockOwnerInv cfg t := by
  cases hstep with
  | openOk p s hpc hfile =>
    intro q hq
    by_cases hqp : q = p
    · subst hqp
      exact ⟨⟨cfg.pidOf q, s.now⟩, rfl, rfl⟩
    · exfalso
      have hq' : holdsLock s q := by
        unfold holdsLock at hq ⊢
        rw [getProc_withFile, setPc, getProc_setProc_ne s p _ q hqp] at hq
        exact hq
      obtain ⟨f, hf, _⟩ := hinv q hq'
      rw [hfile] at hf
      exact Option.noConfusion hf
  | openFail p s f hpc hfile =>
    intro q hq
    by_cases hqp : q = p
    · subst hqp
      unfold holdsLock at hq
      rw [setPc, getProc_setProc_self] at hq
      exact absurd hq (by simp)
    · have hq' : holdsLock s q := by
        unfold holdsLock at hq ⊢
        rw [setPc, getProc_setProc_ne s p _ q hqp] at hq
        exact hq
      obtain ⟨f', hf', ho'⟩ := hinv q hq'
      exact ⟨f', by rw [setPc, setProc_file]; exact hf', ho'⟩
  | statNotStale p s f hpc hfile hfresh =>
    intro q hq
    by_cases hqp : q = p
    · subst hqp
      unfold holdsLock at hq
      rw [setPc, getProc_setProc_self] at hq
      exact absurd hq (by simp)
    · have hq' : holdsLock s q := by
        unfold holdsLock at hq ⊢
        rw [setPc, getProc_setProc_ne s p _ q hqp] at hq
        exact hq
      obtain ⟨f', hf', ho'⟩ := hinv q hq'
      exact ⟨f', by rw [setPc, setProc_file]; exact hf', ho'⟩
  | statStale p s f hpc hfile hstale =>
    intro q hq
    by_cases hqp : q = p
    · subst hqp
      unfold holdsLock at hq
      rw [setPc, getProc_setProc_self] at hq
      exact absurd hq (by simp)
    · have hq' : holdsLock s q := by
        unfold holdsLock at hq ⊢
        rw [setPc, getProc_setProc_ne s p _ q hqp] at hq
        exact hq
      obtain ⟨f', hf', ho'⟩ := hinv q hq'
      exact ⟨f', by rw [setPc, setProc_file]; exact hf', ho'⟩
  | statMissing p s hpc hfile =>
    intro q hq
    by_cases hqp : q = p
    · subst hqp
      unfold holdsLock at hq
      rw [setPc, getProc_setProc_self] at hq
      exact absurd hq (by simp)
    · have hq' : holdsLock s q := by
        unfold holdsLock at hq ⊢
        rw [setPc, getProc_setProc_ne s p _ q hqp] at hq
        exact hq
      obtain ⟨f', hf', ho'⟩ := hinv q hq'
      exact ⟨f', by rw [setPc, setProc_file]; exact hf', ho'⟩
  | unlinkStale p s hpc => exact absurd rfl (hna p)
  | sleepRetry p s hpc hwait =>
    intro q hq
    by_cases hqp : q = p
    · subst hqp
      unfold holdsLock at hq
      rw [getProc_withNow, setPc, getProc_setProc_self] at hq
      exact absurd hq (by simp)
    · have hq' : holdsLock s q := by
        unfold holdsLock at hq ⊢
        rw [getProc_withNow, setPc, getProc_setProc_ne s p _ q hqp] at hq
        exact hq
      obtain ⟨f', hf', ho'⟩ := hinv q hq'
      refine ⟨f', ?_, ho'⟩
      show (setPc s p LockPC.tryOpen).file = some f'
      rw [setPc, setProc_file]
      exact hf'
  | timeoutExpire p s hpc hto =>
    intro q hq
    by_cases hqp : q = p
    · subst hqp
      unfold holdsLock at hq
      rw [setPc, getProc_setProc_self] at hq
      exact absurd hq (by simp)
    · have hq' : holdsLock s q := by
        unfold holdsLock at hq ⊢
        rw [setPc, getProc_setProc_ne s p _ q hqp] at hq
        exact hq
      obtain ⟨f', hf', ho'⟩ := hinv q hq'
      exact ⟨f', by rw [setPc, setProc_file]; exact hf', ho'⟩

theorem lockSteps_preserve_inv (cfg : LockCfg) (acts : List LockAct)
    (s sf : LockGState) (hsteps : LockSteps cfg acts s sf) :
    (∀ p : Bool, LockAct.unlinkStale p ∉ acts) →
    lockOwnerInv cfg s → lockOwnerInv cfg sf := by
  induction hsteps with
  | nil s => exact fun _ h => h
  | cons hstep hrest ih =>
    intro hmem hinv
    exact ih (fun p hm => hmem p (List.mem_cons_of_mem _ hm))
      (lockStep_preserves_inv _ _ _ _
        (fun p heq => hmem p (by rw [heq]; exact List.mem_cons_self _ _))
        hinv hstep)

/-- Counterexample to C9 as stated: from a state with a stale lock file,
the stat-then-unlink reclamation is not atomic, so two contending
processes can interleave (both observe the stale file, the second unlinks
the first one's freshly created lock) and BOTH acquisitions succeed. -/
theorem lockMutex_counterexample :
    ∃ s, LockSteps sampleLockCfg
      [.openFail false, .statStale false, .openFail true, .statStale true,
       .unlinkStale false, .openOk false, .unlinkStale true, .openOk true]
      staleLockInit s ∧ holdsLock s false ∧ holdsLock s true :=
  ⟨_,
    LockSteps.cons (LockStep.openFail false staleLockInit ⟨99, 0⟩ rfl rfl)
    (LockSteps.cons (LockStep.statStale false _ ⟨99, 0⟩ rfl rfl
      (by norm_num [staleLockInit, sampleLockCfg, setPc, setProc]))
    (LockSteps.cons (LockStep.openFail true _ ⟨99, 0⟩ rfl rfl)
    (LockSteps.cons (LockStep.statStale true _ ⟨99, 0⟩ rfl rfl
      (by norm_num [staleLockInit, sampleLockCfg, setPc, setProc]))
    (LockSteps.cons (LockStep.unlinkStale false _ rfl)
    (LockSteps.cons (LockStep.openOk false _ rfl rfl)
    (LockSteps.cons (LockStep.unlinkStale true _ rfl)
    (LockSteps.cons (LockStep.openOk true _ rfl rfl)
    (LockSteps.nil _)))))))), rfl, rfl⟩

/-- C9 (amended): (1) along any interleaving that performs no stale-file
`unlink`, the owner invariant is preserved and two contending processes
with distinct pids never both hold the lock — mutual exclusion of the
`O_CREAT|O_EXCL` acquisition itself; the unrestricted property is refuted
by `lockMutex_counterexample`, since the stat-then-unlink stale
reclamation can also remove a live lock.  (2) An attempt that finds a
lock file older than the staleness threshold unlinks it and acquires in
four steps with no `sleep`: the clock is unchanged, so it succeeds
without waiting for any part of the acquisition timeout. -/
theorem verificationLock_spec :
    (∀ (cfg : LockCfg) (acts : List LockAct) (s s' : LockGState),
      cfg.pidOf false ≠ cfg.pidOf true →
      (∀ p : Bool, LockAct.unlinkStale p ∉ acts) →
      lockOwnerInv cfg s → LockSteps cfg acts s s' →
      lockOwnerInv cfg s' ∧ ¬(holdsLock s' false ∧ holdsLock s' true)) ∧
    (∀ (cfg : LockCfg) (s : LockGState) (f : LockFileState),
      (getProc s false).pc = .tryOpen → s.file = some f →
      cfg.staleSec < s.now - f.mtime →
      ∃ s', LockSteps cfg [.openFail false, .statStale false,
          .unlinkStale false, .openOk false] s s' ∧
        holdsLock s' false ∧ s'.now = s.now) := by
  constructor
  · intro cfg acts s s' hpid hmem hinv hsteps
    have hinv' := lockSteps_preserve_inv cfg acts s s' hsteps hmem hinv
    refine ⟨hinv', ?_⟩
    rintro ⟨h1, h2⟩
    obtain ⟨f1, hf1, ho1⟩ := hinv' false h1
    obtain ⟨f2, hf2, ho2⟩ := hinv' true h2
    rw [hf1] at hf2
    injection hf2 with hf
    apply hpid
    rw [← ho1, ← ho2, hf]
  · intro cfg s f hpc hfile hstale
    exact ⟨_,
      LockSteps.cons (LockStep.openFail false s f hpc hfile)
      (LockSteps.cons (LockStep.statStale false _ f rfl hfile hstale)
      (LockSteps.cons (LockStep.unlinkStale false _ rfl)
      (LockSteps.cons (LockStep.openOk false _ rfl rfl)
      (LockSteps.nil _)))), rfl, rfl⟩

/-- Witness for C9: part (1) applied to the empty interleaving from the
stale initial state (distinct pids 1 and 2, owner invariant holds since
nobody is acquired), and part (2) applied to the concrete stale state
(file age 20 exceeds threshold 10). -/
theorem verificationLock_spec_witness :
    (lockOwnerInv sampleLockCfg staleLockInit ∧
      ¬(holdsLock staleLockInit false ∧ holdsLock staleLockInit true)) ∧
    (∃ s', LockSteps sampleLockCfg [.openFail false, .statStale false,
        .unlinkStale false, .openOk false] staleLockInit s' ∧
      holdsLock s' false ∧ s'.now = staleLockInit.now) := by
  have hinv : lockOwnerInv sampleLockCfg staleLockInit := by
    intro p h
    cases p <;> exact absurd h (by unfold holdsLock; decide)
  constructor
  · exact verificationLock_spec.1 sampleLockCfg [] staleLockInit
      staleLockInit (by decide) (by simp) hinv (LockSteps.nil _)
  · exact verificationLock_spec.2 sampleLockCfg staleLockInit ⟨99, 0⟩
      rfl rfl (by norm_num [staleLockInit, sampleLockCfg])
